import Mathlib

/-!
Verification development for the Checkball score service
(`src/checkball.py`).  The Python source is shallowly embedded: pure
helpers become Lean functions, the upstream JSON payloads become typed
structures with `Option` fields for possibly-absent keys, Python
exceptions become explicit `Except` plumbing, and `datetime` instants
become integers counting seconds (US Eastern is modelled as the fixed
offset UTC-5; daylight saving is outside the model, and Python's
`float`/`fromisoformat` are modelled on the numeric grammars that the
upstream payloads actually use).
-/

namespace Checkball

/-! ## Timestamp parsing (`get_scores`, lines 176-201)

Models `datetime.fromisoformat` on strings of the shape
`YYYY-MM-DDTHH:MM[:SS][+HH:MM | -HH:MM]`, which is the family of
timestamps the upstream emits (optionally with a trailing `Z`, handled
by the caller before parsing).  The parsed instant is represented as
seconds relative to the Unix epoch. -/

def digitVal (c : Char) : Option Nat :=
  if '0' ≤ c ∧ c ≤ '9' then some (c.toNat - 48) else none

/-- Read exactly `k` decimal digits from the front of the list. -/
def readDigits : Nat → List Char → Option (Nat × List Char)
  | 0, cs => some (0, cs)
  | _ + 1, [] => none
  | k + 1, c :: cs =>
    match digitVal c with
    | none => none
    | some d =>
      match readDigits k cs with
      | none => none
      | some (v, cs') => some (d * 10 ^ k + v, cs')

def expectChar (c : Char) : List Char → Option (List Char)
  | [] => none
  | x :: cs => if x = c then some cs else none

/-- An optional `:SS` seconds field. -/
def readOptSeconds : List Char → Option (Nat × List Char)
  | [] => some (0, [])
  | c :: cs => if c = ':' then readDigits 2 cs else some (0, c :: cs)

/-- Days since 1970-01-01 of the civil date `y-m-d` (proleptic Gregorian). -/
def daysFromCivil (y : Int) (m d : Nat) : Int :=
  let y' : Int := if (m : Int) ≤ 2 then y - 1 else y
  let era : Int := (if 0 ≤ y' then y' else y' - 399) / 400
  let yoe : Int := y' - era * 400
  let mp : Nat := (m + 9) % 12
  let doy : Int := ((153 * mp + 2) / 5 : Nat) + d - 1
  let doe : Int := yoe * 365 + yoe / 4 - yoe / 100 + doy
  era * 146097 + doe - 719468

def naiveSeconds (y : Int) (mo d h mi s : Nat) : Int :=
  daysFromCivil y mo d * 86400 + ((h * 3600 + mi * 60 + s : Nat) : Int)

/-- Parse the date-time part `YYYY-MM-DDTHH:MM[:SS]`, returning the naive
instant (as if UTC) and the unconsumed remainder. -/
def parseNaive (cs : List Char) : Option (Int × List Char) :=
  match readDigits 4 cs with
  | none => none
  | some (y, r1) =>
  match expectChar '-' r1 with
  | none => none
  | some r2 =>
  match readDigits 2 r2 with
  | none => none
  | some (mo, r3) =>
  match expectChar '-' r3 with
  | none => none
  | some r4 =>
  match readDigits 2 r4 with
  | none => none
  | some (d, r5) =>
  match expectChar 'T' r5 with
  | none => none
  | some r6 =>
  match readDigits 2 r6 with
  | none => none
  | some (h, r7) =>
  match expectChar ':' r7 with
  | none => none
  | some r8 =>
  match readDigits 2 r8 with
  | none => none
  | some (mi, r9) =>
  match readOptSeconds r9 with
  | none => none
  | some (s, r10) =>
  if 1 ≤ mo ∧ mo ≤ 12 ∧ 1 ≤ d ∧ d ≤ 31 ∧ h ≤ 23 ∧ mi ≤ 59 ∧ s ≤ 59 then
    some (naiveSeconds (Int.ofNat y) mo d h mi s, r10)
  else none

/-- A UTC offset suffix `±HH:MM`, which must be the whole remainder
(`fromisoformat` rejects trailing garbage). -/
def parseOffsetTail : List Char → Option Int
  | [sg, a, b, colon, c, d] =>
    if colon = ':' then
      match (if sg = '+' then some (1 : Int) else if sg = '-' then some (-1 : Int) else none),
            digitVal a, digitVal b, digitVal c, digitVal d with
      | some sgn, some da, some db, some dc, some dd =>
        let h := da * 10 + db
        let mi := dc * 10 + dd
        if h ≤ 23 ∧ mi ≤ 59 then some (sgn * ((h * 3600 + mi * 60 : Nat) : Int)) else none
      | _, _, _, _, _ => none
    else none
  | _ => none

/-- `datetime.fromisoformat`: a naive instant plus an optional offset. -/
def parseIsoChars (cs : List Char) : Option (Int × Option Int) :=
  match parseNaive cs with
  | none => none
  | some (n, []) => some (n, none)
  | some (n, rest) =>
    match parseOffsetTail rest with
    | none => none
    | some off => some (n, some off)

/-- US Eastern modelled as the fixed offset UTC-5 (18000 seconds). -/
def easternShift : Int := 18000

def toEasternLocal (utc : Int) : Int := utc - easternShift

/-- `fromisoformat` followed by `.astimezone(eastern)`, producing local
Eastern seconds.  A naive result (no offset) is converted from the
system timezone, which the model fixes to UTC. -/
def parseAwareEastern (cs : List Char) : Option Int :=
  match parseIsoChars cs with
  | some (n, some off) => some (toEasternLocal (n - off))
  | some (n, none) => some (toEasternLocal n)
  | none => none

/-- Python `str.replace('Z', '+00:00')` (every occurrence). -/
def replaceZChars : List Char → List Char
  | [] => []
  | c :: cs => (if c = 'Z' then "+00:00".data else [c]) ++ replaceZChars cs

/-- The date-handling block of `get_scores` (lines 181-190): trailing `Z`
is rewritten to `+00:00`; a string with no `+` but containing `T` gets
`+00:00` appended; anything else is parsed as given.  Returns the game
date in local Eastern seconds, or `none` when parsing fails (the caller
then skips the record). -/
def parse_game_date (s : String) : Option Int :=
  if s.data.getLast? = some 'Z' then parseAwareEastern (replaceZChars s.data)
  else if ¬ s.data.contains '+' ∧ s.data.contains 'T' then
    parseAwareEastern (s.data ++ "+00:00".data)
  else parseAwareEastern s.data

/-! ## Team-name normalisation and matching
(`_normalize_team_name`, `_team_name_matches`, lines 318-400) -/

/-- Python `str.lower` restricted to ASCII plus the accented capitals
appearing in the team tables. -/
def lowerChar (c : Char) : Char :=
  if 'A' ≤ c ∧ c ≤ 'Z' then Char.ofNat (c.toNat + 32)
  else if c = 'É' then 'é' else if c = 'Á' then 'á' else if c = 'Í' then 'í'
  else if c = 'Ó' then 'ó' else if c = 'Ú' then 'ú' else if c = 'Ñ' then 'ñ'
  else if c = 'Ü' then 'ü' else c

def isSpaceChar (c : Char) : Bool := c = ' ' ∨ c = '\t' ∨ c = '\n' ∨ c = '\r'

def trimChars (cs : List Char) : List Char :=
  ((cs.dropWhile isSpaceChar).reverse.dropWhile isSpaceChar).reverse

def lowerStr (s : String) : String := String.mk (s.data.map lowerChar)

/-- Python `team_name.lower().strip()`. -/
def lowerStrip (s : String) : String := String.mk (trimChars (s.data.map lowerChar))

/-- The static nickname table of `_normalize_team_name`. -/
def team_mappings : List (String × String) :=
  [("athletics", "oakland athletics"),
   ("a\x27s", "oakland athletics"),
   ("oakland a\x27s", "oakland athletics"),
   ("dodgers", "los angeles dodgers"),
   ("angels", "los angeles angels"),
   ("yankees", "new york yankees"),
   ("mets", "new york mets"),
   ("red sox", "boston red sox"),
   ("white sox", "chicago white sox"),
   ("blue jays", "toronto blue jays"),
   ("guardians", "cleveland guardians"),
   ("diamondbacks", "arizona diamondbacks"),
   ("rays", "tampa bay rays"),
   ("liberty", "new york liberty"),
   ("aces", "las vegas aces"),
   ("sky", "chicago sky"),
   ("sun", "connecticut sun"),
   ("storm", "seattle storm"),
   ("lynx", "minnesota lynx"),
   ("sparks", "los angeles sparks"),
   ("mercury", "phoenix mercury"),
   ("mystics", "washington mystics"),
   ("fever", "indiana fever"),
   ("wings", "dallas wings"),
   ("dream", "atlanta dream"),
   ("barcelona", "barcelona"),
   ("barca", "barcelona"),
   ("real madrid", "real madrid"),
   ("madrid", "real madrid"),
   ("atletico madrid", "atlético madrid"),
   ("atletico", "atlético madrid"),
   ("athletic bilbao", "athletic bilbao"),
   ("athletic", "athletic bilbao"),
   ("real sociedad", "real sociedad"),
   ("sociedad", "real sociedad"),
   ("valencia", "valencia"),
   ("sevilla", "sevilla"),
   ("villarreal", "villarreal"),
   ("betis", "real betis"),
   ("real betis", "real betis")]

def normalize_team_name (team_name : String) : String :=
  let normalized := lowerStrip team_name
  (((team_mappings.find? (fun p => p.1 = normalized)).map Prod.snd)).getD normalized

/-- Python substring containment `a in b`. -/
def isSubstrOf (a b : String) : Bool :=
  b.data.tails.any (fun t => a.data.isPrefixOf t)

/-- Python `str.split()`: split on whitespace runs, dropping empties. -/
def wordsAux : List Char → List Char → List String
  | [], acc => if acc = [] then [] else [String.mk acc.reverse]
  | c :: cs, acc =>
    if isSpaceChar c then
      if acc = [] then wordsAux cs [] else String.mk acc.reverse :: wordsAux cs []
    else wordsAux cs (c :: acc)

def splitWords (s : String) : List String := wordsAux s.data []

def common_words : List String := ["the", "of", "and", "fc", "united", "city"]

/-- The significant words of a normalised name: whitespace-split words
minus the stop-word set. -/
def filteredWords (s : String) : List String :=
  (splitWords s).filter (fun w => ¬ common_words.contains w)

/-- `_team_name_matches` (lines 370-400). -/
def team_name_matches (search_name api_name : String) : Bool :=
  let sn := normalize_team_name search_name
  let an := normalize_team_name api_name
  if sn = an then true
  else if isSubstrOf sn an then true
  else if isSubstrOf an sn then true
  else
    let sw := filteredWords sn
    let aw := filteredWords an
    if sw ≠ [] ∧ aw ≠ [] then sw.any (fun w => aw.contains w) else false

/-! ## Scoreboard payloads and `get_scores` (lines 129-265)

JSON objects become structures whose possibly-absent keys are `Option`
fields.  Python exceptions are explicit: `PyErr.caught` stands for the
exception classes the per-day handler catches (`RequestException`,
`ValueError`, `KeyError`), `PyErr.uncaught` for anything else (such as
the `IndexError` raised by `competitions[0]` on an explicitly empty
list), which only the outer handler of `get_scores` stops. -/

inductive PyErr where
  | caught
  | uncaught
deriving DecidableEq

instance exceptDecEq {ε α : Type} [DecidableEq ε] [DecidableEq α] : DecidableEq (Except ε α)
  | .error e, .error f =>
    if h : e = f then .isTrue (by rw [h])
    else .isFalse (fun hh => by injection hh; contradiction)
  | .error _, .ok _ => .isFalse (fun hh => by cases hh)
  | .ok _, .error _ => .isFalse (fun hh => by cases hh)
  | .ok x, .ok y =>
    if h : x = y then .isTrue (by rw [h])
    else .isFalse (fun hh => by injection hh; contradiction)

/-- One entry of `competitions[0].competitors`.  `teamDisplayName` models
`competitor.team.displayName`; when it is `none`, the safe lookup used
for matching yields `""` while the direct indexing in `_get_opponent`
raises `KeyError`. -/
structure Competitor where
  id : Option String
  teamDisplayName : Option String
  score : Option String
deriving DecidableEq

structure Competition where
  competitors : List Competitor
  venueFullName : Option String
deriving DecidableEq

structure Event where
  id : Option String
  competitions : Option (List Competition)
  date : Option String
  statusDetail : Option String
  statusName : Option String
deriving DecidableEq

structure Scoreboard where
  events : List Event
deriving DecidableEq

/-- One collected game record (`game_info`, lines 219-230).  The
display-only `game_date_iso`/`last_updated` fields are omitted;
`game_date` is in local Eastern seconds. -/
structure Game where
  team : String
  team_score : String
  opponent : String
  opponent_score : String
  status : String
  status_type : String
  game_date : Int
  venue : String
deriving DecidableEq

/-- `event.get('competitions', [{}])[0]`: an absent key defaults to a
one-element list holding an empty object, while a present empty list
makes `[0]` raise `IndexError`. -/
def firstCompetition (ev : Event) : Except PyErr Competition :=
  match ev.competitions with
  | none => .ok ⟨[], none⟩
  | some [] => .error .uncaught
  | some (c :: _) => .ok c

structure Opp where
  name : String
  score : String
deriving DecidableEq

/-- `_get_opponent` (lines 402-410): first competitor with a different
`id`; direct `['id']` and `['team']['displayName']` indexing raises
`KeyError` on absent keys. -/
def get_opponent : List Competitor → Competitor → Except PyErr Opp
  | [], _ => .ok ⟨"Unknown", "0"⟩
  | t :: rest, cur =>
    match t.id, cur.id with
    | some tid, some cid =>
      if tid ≠ cid then
        match t.teamDisplayName with
        | some nm => .ok ⟨nm, t.score.getD "0"⟩
        | none => .error .caught
      else get_opponent rest cur
    | _, _ => .error .caught

/-- The status names for which real scores are displayed (line 212). -/
def liveOrFinal : List String :=
  ["STATUS_FINAL", "STATUS_FINAL_OT", "STATUS_IN_PROGRESS", "STATUS_HALFTIME"]

/-- Building `game_info` (lines 203-230) for a matched competitor. -/
def mkGame (teamDisplayName : String) (c : Competitor) (opp : Opp)
    (ev : Event) (comp : Competition) (gameDate : Int) : Game :=
  let status_name := ev.statusName.getD "STATUS_SCHEDULED"
  let scores : String × String :=
    if liveOrFinal.contains status_name then (c.score.getD "0", opp.score) else ("-", "-")
  let venue := comp.venueFullName.getD ""
  { team := teamDisplayName
    team_score := scores.1
    opponent := opp.name
    opponent_score := scores.2
    status := ev.statusDetail.getD "Scheduled"
    status_type := status_name
    game_date := gameDate
    venue := if venue = "" then "TBD" else venue }

/-- The `for team in competitors` loop (lines 171-232): the first
matching competitor resolves the opponent, then parses the game date; a
missing or unparseable date `continue`s to the next competitor, and a
successful build `break`s. -/
def scanCompetitors (team_name : String) (ev : Event) (comp : Competition) :
    List Competitor → Except PyErr (Option Game)
  | [] => .ok none
  | c :: rest =>
    let dn := c.teamDisplayName.getD ""
    if team_name_matches team_name dn then
      match get_opponent comp.competitors c with
      | .error e => .error e
      | .ok opp =>
        if ev.date.getD "" = "" then scanCompetitors team_name ev comp rest
        else
          match parse_game_date (ev.date.getD "") with
          | none => scanCompetitors team_name ev comp rest
          | some d => .ok (some (mkGame dn c opp ev comp d))
    else scanCompetitors team_name ev comp rest

def processEvent (team_name : String) (ev : Event) : Except PyErr (Option Game) :=
  match firstCompetition ev with
  | .error e => .error e
  | .ok comp => scanCompetitors team_name ev comp comp.competitors

/-- The `for game in data.get('events', [])` loop: records collected so
far are kept even when a later event raises (Python appends as it
goes); the first exception aborts the rest of the day's events. -/
def processEvents (team_name : String) : List Event → List Game × Option PyErr
  | [] => ([], none)
  | ev :: rest =>
    match processEvent team_name ev with
    | .error e => ([], some e)
    | .ok none => processEvents team_name rest
    | .ok (some g) =>
      let r := processEvents team_name rest
      (g :: r.1, r.2)

/-- One iteration of the date-window loop (lines 159-235): a failed
request or a caught exception is downgraded to "no games that day"
(keeping any records already collected); an uncaught exception
propagates. -/
def processDay (team_name : String) (fetched : Except Unit Scoreboard) :
    List Game × Option PyErr :=
  match fetched with
  | .error _ => ([], none)
  | .ok sb =>
    let r := processEvents team_name sb.events
    match r.2 with
    | some .caught => (r.1, none)
    | _ => r

/-- The full window: concatenate the days' records; an uncaught
exception aborts the remaining days. -/
def collectWindow (team_name : String) : List (Except Unit Scoreboard) →
    List Game × Option PyErr
  | [] => ([], none)
  | d :: ds =>
    let r := processDay team_name d
    match r.2 with
    | some e => (r.1, some e)
    | none =>
      let r' := collectWindow team_name ds
      (r.1 ++ r'.1, r'.2)

/-- The five scoreboard days fetched by `get_scores` (offsets
-1, 0, +1, +2, +3 from the current day). -/
def scoreWindowOffsets : List Int := [-1, 0, 1, 2, 3]

/-! ### Game selection (`_select_primary_and_next_games`, lines 267-316) -/

def isCompletedGame (g : Game) : Bool :=
  g.status_type = "STATUS_FINAL" ∨ g.status_type = "STATUS_FINAL_OT"

def isInProgressGame (g : Game) : Bool :=
  g.status_type = "STATUS_IN_PROGRESS" ∨ g.status_type = "STATUS_HALFTIME"

def isUpcomingGame (g : Game) : Bool := g.status_type = "STATUS_SCHEDULED"

/-- `sort(key=date, reverse=True)`: stable descending order. -/
def gameDateDesc (a b : Game) : Prop := b.game_date ≤ a.game_date

/-- `sort(key=date)`: stable ascending order. -/
def gameDateAsc (a b : Game) : Prop := a.game_date ≤ b.game_date

instance : DecidableRel gameDateDesc := fun a b => Int.decLe b.game_date a.game_date

instance : DecidableRel gameDateAsc := fun a b => Int.decLe a.game_date b.game_date

instance : IsTotal Game gameDateDesc := ⟨fun a b => Int.le_total b.game_date a.game_date⟩

instance : IsTotal Game gameDateAsc := ⟨fun a b => Int.le_total a.game_date b.game_date⟩

instance : IsTrans Game gameDateDesc := ⟨fun _ _ _ h1 h2 => le_trans h2 h1⟩

instance : IsTrans Game gameDateAsc := ⟨fun _ _ _ h1 h2 => le_trans h1 h2⟩

/-- Midnight (00:00) Eastern of the day containing `t`
(`current_time.replace(hour=0, minute=0, second=0, microsecond=0)`). -/
def floorDay (t : Int) : Int := t - t % 86400

/-- `today_start <= g['game_date'] < today_end` (line 294). -/
def inTodayWindow (current_time : Int) (g : Game) : Bool :=
  floorDay current_time ≤ g.game_date ∧ g.game_date < floorDay current_time + 86400

/-- `_select_primary_and_next_games`: partition by status, sort completed
descending and upcoming ascending by date (both stably), then apply the
priority cascade; the defensive fallback sorts everything descending. -/
def select_primary_and_next_games (games : List Game) (current_time : Int) :
    Option Game × Option Game :=
  let completed_games := (games.filter isCompletedGame).insertionSort gameDateDesc
  let in_progress_games := games.filter isInProgressGame
  let upcoming_games := (games.filter isUpcomingGame).insertionSort gameDateAsc
  if in_progress_games ≠ [] then
    (in_progress_games.head?, upcoming_games.head?)
  else if completed_games ≠ [] then
    let todays_completed := completed_games.filter (inTodayWindow current_time)
    if todays_completed ≠ [] then (todays_completed.head?, upcoming_games.head?)
    else (completed_games.head?, upcoming_games.head?)
  else if upcoming_games ≠ [] then
    (upcoming_games.head?, upcoming_games.get? 1)
  else
    ((games.insertionSort gameDateDesc).head?, none)

/-! ### The `get_scores` boundary -/

structure NextGameInfo where
  opponent : String
  game_date : Int
  venue : String
deriving DecidableEq

structure ScoresSuccess where
  game : Game
  next_game : Option NextGameInfo
deriving DecidableEq

/-- The three result shapes `get_scores` can return: a primary-game
object, the "no games found" placeholder, or an error object. -/
inductive ScoresResult where
  | success (s : ScoresSuccess)
  | noGames (team : String)
  | err (msg : String)
deriving DecidableEq

def supported_sports : List String :=
  ["nba", "wnba", "nfl", "mls", "premier league", "la liga", "mlb", "nhl"]

/-- `get_scores` (lines 129-265).  `net` gives the outcome of each
day's scoreboard request (`.error` = request failure after retries).
The outer `except Exception` turns any uncaught exception into an
error object, so the function is total. -/
def get_scores (sport team_name : String) (now : Int)
    (net : Int → Except Unit Scoreboard) : ScoresResult :=
  if ¬ supported_sports.contains (lowerStr sport) then .err "Sport not supported"
  else
    let r := collectWindow team_name (scoreWindowOffsets.map net)
    match r.2 with
    | some _ => .err "Failed to fetch data"
    | none =>
      if r.1 = [] then .noGames team_name
      else
        match select_primary_and_next_games r.1 now with
        | (some primary, nextg) =>
          .success ⟨primary, nextg.map (fun n => ⟨n.opponent, n.game_date, n.venue⟩)⟩
        | (none, _) => .err "Failed to fetch data"

/-! ## Detailed-game payloads and leader extraction
(`_parse_game_leaders` and helpers, lines 690-1266) -/

structure TeamInfo where
  abbreviation : Option String
  shortDisplayName : Option String
  displayName : Option String
  logo : Option String
deriving DecidableEq

structure AthleteInfo where
  displayName : Option String
  fullName : Option String
  name : Option String
  lastName : Option String
deriving DecidableEq

structure PlayerEntry where
  athlete : Option AthleteInfo
  displayName : Option String
  name : Option String
  displayValue : Option String
  value : Option String
  statValue : Option String
deriving DecidableEq

structure StatCategory where
  displayName : Option String
  name : Option String
  leaders : List PlayerEntry
deriving DecidableEq

structure TeamLeaderEntry where
  team : Option TeamInfo
  leaders : List StatCategory
deriving DecidableEq

/-- One entry of a position group's `athletes`; `displayName` models
`athlete.athlete.displayName`, and a `none` stat cell is a JSON null. -/
structure BoxAthlete where
  displayName : Option String
  stats : List (Option String)
deriving DecidableEq

structure PositionGroup where
  name : Option String
  athletes : List BoxAthlete
deriving DecidableEq

structure TeamPlayers where
  team : Option TeamInfo
  statistics : List PositionGroup
deriving DecidableEq

structure BStat where
  name : Option String
  displayName : Option String
  displayValue : Option String
deriving DecidableEq

structure BTeam where
  team : Option TeamInfo
  statistics : List BStat
  leaders : Option (List StatCategory)
deriving DecidableEq

structure Boxscore where
  teams : List BTeam
  players : Option (List TeamPlayers)
  leaders : Option (List TeamLeaderEntry)
deriving DecidableEq

structure HeaderCompetitor where
  homeAway : Option String
  team : Option TeamInfo
  score : Option String
deriving DecidableEq

structure DStatus where
  detail : Option String
  name : Option String
  period : Option Int
  displayClock : Option String
  completed : Option Bool
deriving DecidableEq

structure DVenue where
  fullName : Option String
  city : Option String
  state : Option String
deriving DecidableEq

structure HCompetition where
  competitors : List HeaderCompetitor
  status : Option DStatus
  venue : Option DVenue
  date : Option String
deriving DecidableEq

structure Header where
  competitions : Option (List HCompetition)
deriving DecidableEq

structure Play where
  periodDisplayValue : Option String
  clockDisplayValue : Option String
  teamAbbreviation : Option String
  text : Option String
  scoreValue : Option Int
deriving DecidableEq

/-- The event-summary payload. -/
structure DetailPayload where
  header : Option Header
  boxscore : Option Boxscore
  leaders : Option (List TeamLeaderEntry)
  scoringPlays : Option (List Play)
deriving DecidableEq

/-! ### Numeric parsing (Python `float` / `int` on stat strings) -/

/-- Consume leading decimal digits, returning (value, digit count, rest). -/
def takeDigits : List Char → (Nat × Nat) × List Char
  | [] => ((0, 0), [])
  | c :: cs =>
    match digitVal c with
    | none => ((0, 0), c :: cs)
    | some d =>
      let r := takeDigits cs
      ((d * 10 ^ r.1.2 + r.1.1, r.1.2 + 1), r.2)

/-- Python `float(s)` on the grammar `[ws] [+|-] digits [. digits] [ws]`
(the shapes stat strings take); at least one digit required. -/
def parseNum (s : String) : Option Rat :=
  let cs := trimChars s.data
  let signed : Int × List Char :=
    match cs with
    | '-' :: r => (-1, r)
    | '+' :: r => (1, r)
    | r => (1, r)
  let ip := takeDigits signed.2
  match ip.2 with
  | [] => if ip.1.2 = 0 then none else some (mkRat (signed.1 * ip.1.1) 1)
  | '.' :: r =>
    let fp := takeDigits r
    if fp.2 = [] ∧ ip.1.2 + fp.1.2 ≠ 0 then
      some (mkRat (signed.1 * (ip.1.1 * 10 ^ fp.1.2 + fp.1.1)) (10 ^ fp.1.2))
    else none
  | _ => none

/-- Python `int(s)` on `[ws] [+|-] digits [ws]`. -/
def parseIntPy (s : String) : Option Int :=
  let cs := trimChars s.data
  let signed : Int × List Char :=
    match cs with
    | '-' :: r => (-1, r)
    | '+' :: r => (1, r)
    | r => (1, r)
  let ip := takeDigits signed.2
  if ip.2 = [] ∧ ip.1.2 ≠ 0 then some (signed.1 * ip.1.1) else none

/-- An `a or b or ...` chain over lookups: first present, non-empty string. -/
def firstTruthy (l : List (Option String)) : Option String :=
  l.findSome? (fun o => o.bind (fun s => if s = "" then none else some s))

/-- A returned leader entry: the triple that survives in the output. -/
structure Leader where
  name : String
  value : String
  team : String
deriving DecidableEq

/-- A collected leader entry still carrying its numeric sort key. -/
structure LeaderN where
  name : String
  value : String
  team : String
  numeric_value : Rat
deriving DecidableEq

def dropNumeric (l : LeaderN) : Leader := ⟨l.name, l.value, l.team⟩

/-- Stable descending order on the numeric sort key
(`sort(key=..., reverse=True)`). -/
def leaderNGe (a b : LeaderN) : Prop := b.numeric_value ≤ a.numeric_value

instance : DecidableRel leaderNGe := fun a b =>
  inferInstanceAs (Decidable (b.numeric_value ≤ a.numeric_value))

instance : IsTotal LeaderN leaderNGe := ⟨fun a b => le_total b.numeric_value a.numeric_value⟩

instance : IsTrans LeaderN leaderNGe := ⟨fun _ _ _ h1 h2 => le_trans h2 h1⟩

/-! ### Strategy 1: the top-level leaders array
(`_parse_leaders_from_main_array`, lines 756-860) -/

def teamNameOf (ti : Option TeamInfo) (idx : Nat) : String :=
  (firstTruthy [ti.bind TeamInfo.abbreviation, ti.bind TeamInfo.shortDisplayName,
    ti.bind TeamInfo.displayName]).getD ("Team " ++ toString (idx + 1))

def categoryNameOf (sc : StatCategory) (idx : Nat) : String :=
  (firstTruthy [sc.displayName, sc.name]).getD ("Category " ++ toString idx)

/-- The players of one category accepted by the lenient validation. -/
def acceptedPlayers (team_name : String) (pe : List PlayerEntry) : List Leader :=
  pe.filterMap (fun p =>
    let ath := p.athlete
    let nm := (firstTruthy [ath.bind AthleteInfo.displayName, ath.bind AthleteInfo.fullName,
      ath.bind AthleteInfo.name, ath.bind AthleteInfo.lastName,
      p.displayName, p.name]).getD "Unknown Player"
    let v := (firstTruthy [p.displayValue, p.value, p.statValue]).getD "0"
    if nm ≠ "Unknown Player" ∧ nm ≠ "" ∧ v ≠ "0" ∧ v ≠ "" ∧ v ≠ "N/A" ∧ v ≠ "--" then
      some ⟨nm, v, team_name⟩
    else none)

/-- Dict-insertion semantics: append players to an existing category key,
or add the key at the end. -/
def appendAt (m : List (String × List Leader)) (k : String) (vs : List Leader) :
    List (String × List Leader) :=
  if m.any (fun p => p.1 = k) then
    m.map (fun p => if p.1 = k then (p.1, p.2 ++ vs) else p)
  else m ++ [(k, vs)]

def parse_leaders_from_main_array (leaders_data : List TeamLeaderEntry) :
    List (String × List Leader) :=
  ((leaders_data.enum).foldl (fun acc ti =>
    let tname := teamNameOf ti.2.team ti.1
    (ti.2.leaders.enum).foldl (fun acc2 sc =>
      appendAt acc2 (categoryNameOf sc.2 sc.1) (acceptedPlayers tname sc.2.leaders)) acc)
    []).filter (fun p => p.2 ≠ [])

/-! ### Strategy 3: leaders nested in the boxscore
(`_extract_leaders_from_boxscore_nested`, lines 862-885) -/

def bteamToLeaderEntry (bt : BTeam) : TeamLeaderEntry := ⟨bt.team, bt.leaders.getD []⟩

/-- Python `dict.update`: replace existing keys in place, append new ones. -/
def dictUpdate (m upd : List (String × List Leader)) : List (String × List Leader) :=
  upd.foldl (fun acc p =>
    if acc.any (fun q => q.1 = p.1) then acc.map (fun q => if q.1 = p.1 then p else q)
    else acc ++ [p]) m

def extract_leaders_from_boxscore_nested (bs : Boxscore) : List (String × List Leader) :=
  match bs.leaders with
  | some l => parse_leaders_from_main_array l
  | none =>
    (bs.teams.filter (fun bt => bt.leaders.isSome)).foldl
      (fun acc bt => dictUpdate acc (parse_leaders_from_main_array [bteamToLeaderEntry bt])) []

/-! ### Strategy 2: box-score player statistics
(`_extract_leaders_from_boxscore` and the per-sport extractors,
lines 887-1200) -/

/-- `stats[index] not in ['--', '', '0', None]`: the skip set applied
before any numeric parsing. -/
def cellSkipped (c : Option String) : Bool :=
  match c with
  | none => true
  | some s => s = "--" ∨ s = "" ∨ s = "0"

/-- The MLB inner index loop (lines 1047-1056): at each candidate index,
a value passing the skip set is parsed; an unparseable or non-positive
value moves on to the next index. -/
def findPositiveStat (stats : List (Option String)) : List Nat → Option String
  | [] => none
  | i :: rest =>
    match stats.get? i with
    | none => findPositiveStat stats rest
    | some c =>
      if cellSkipped c then findPositiveStat stats rest
      else
        match c with
        | none => findPositiveStat stats rest
        | some v =>
          match parseNum v with
          | none => findPositiveStat stats rest
          | some q => if 0 < q then some v else findPositiveStat stats rest

/-- The index loop of `_extract_leaders_by_indices` (lines 1173-1177):
`break` at the first candidate index whose cell merely passes the skip
set, whether or not it parses as a number. -/
def pickStat (stats : List (Option String)) : List Nat → Option (Option String)
  | [] => none
  | i :: rest =>
    match stats.get? i with
    | none => pickStat stats rest
    | some c => if cellSkipped c then pickStat stats rest else some c

structure MLBPlayer where
  name : String
  team : String
  position_group : String
  stats : List (Option String)
deriving DecidableEq

/-- The player-collection pass of `_extract_mlb_leaders` (lines 946-987). -/
def collectMLBPlayers (players : List TeamPlayers) : List MLBPlayer :=
  players.flatMap (fun td =>
    let tname := (td.team.bind TeamInfo.abbreviation).getD "UNK"
    (td.statistics.enum).flatMap (fun pg =>
      let gname := pg.2.name.getD ("Group " ++ toString pg.1)
      (pg.2.athletes.enum).filterMap (fun ath =>
        if ath.2.stats = [] then none
        else some ⟨ath.2.displayName.getD ("Player " ++ toString ath.1), tname, gname,
          ath.2.stats⟩)))

/-- `_find_mlb_stat_leaders` (lines 1026-1082). -/
def find_mlb_stat_leaders (all_players : List MLBPlayer) (position_groups : List String)
    (stat_indices : List Nat) : List Leader :=
  let category_leaders := all_players.filterMap (fun p =>
    if position_groups ≠ [] ∧
        ¬ position_groups.any (fun g => isSubstrOf (lowerStr g) (lowerStr p.position_group)) then
      none
    else
      match findPositiveStat p.stats stat_indices with
      | none => none
      | some v =>
        match parseNum v with
        | none => none
        | some q => some (⟨p.name, v, p.team, q⟩ : LeaderN))
  ((category_leaders.insertionSort leaderNGe).map dropNumeric).take 3

def mlbPrimaryCategories (ps : List MLBPlayer) : List (String × List Leader) :=
  [("Hits", find_mlb_stat_leaders ps ["batting", "hitters", "offense"] [0, 1, 2, 3, 4]),
   ("RBIs", find_mlb_stat_leaders ps ["batting", "hitters", "offense"] [1, 2, 3, 4, 5]),
   ("Home Runs", find_mlb_stat_leaders ps ["batting", "hitters", "offense"] [2, 3, 4, 5, 6]),
   ("Runs Scored", find_mlb_stat_leaders ps ["batting", "hitters", "offense"] [3, 4, 5, 6, 7]),
   ("Strikeouts (Pitching)", find_mlb_stat_leaders ps ["pitching", "pitchers"] [0, 1, 2, 3, 4]),
   ("Innings Pitched", find_mlb_stat_leaders ps ["pitching", "pitchers"] [1, 2, 3, 4, 5])]

def mlbFallbackCategories (ps : List MLBPlayer) : List (String × List Leader) :=
  [("Performance Stat 1", find_mlb_stat_leaders ps [] [0, 1, 2]),
   ("Performance Stat 2", find_mlb_stat_leaders ps [] [1, 2, 3]),
   ("Performance Stat 3", find_mlb_stat_leaders ps [] [2, 3, 4]),
   ("Performance Stat 4", find_mlb_stat_leaders ps [] [3, 4, 5])]

/-- `_extract_mlb_leaders` (lines 939-1024). -/
def extract_mlb_leaders (players : List TeamPlayers) : List (String × List Leader) :=
  let all_players := collectMLBPlayers players
  let cats := mlbPrimaryCategories all_players
  let cats := if cats.all (fun p => p.2 = []) then mlbFallbackCategories all_players else cats
  cats.filter (fun p => p.2 ≠ [])

structure StatCatConfig where
  indices : List Nat
  names : List String
deriving DecidableEq

/-- The entries collected for one category by
`_extract_leaders_by_indices` before sorting. -/
def entriesForCategory (players : List TeamPlayers) (cfg : StatCatConfig) : List LeaderN :=
  players.flatMap (fun td =>
    td.statistics.flatMap (fun pg =>
      pg.athletes.filterMap (fun ath =>
        if ath.stats = [] then none
        else
          match pickStat ath.stats cfg.indices with
          | none => none
          | some none => none
          | some (some v) =>
            if v ≠ "" ∧ v ≠ "--" ∧ v ≠ "0" then
              match parseNum v with
              | none => none
              | some q =>
                if 0 < q then
                  some (⟨ath.displayName.getD "Unknown", v,
                    (td.team.bind TeamInfo.abbreviation).getD "UNK", q⟩ : LeaderN)
                else none
            else none)))

/-- `_extract_leaders_by_indices` (lines 1142-1200). -/
def extract_leaders_by_indices (players : List TeamPlayers)
    (stat_categories : List (String × StatCatConfig)) : List (String × List Leader) :=
  stat_categories.foldl (fun acc cat =>
    if entriesForCategory players cat.2 ≠ [] then
      acc ++ [(cat.1, (((entriesForCategory players cat.2).insertionSort
        leaderNGe).map dropNumeric).take 3)]
    else acc) []

def basketball_categories : List (String × StatCatConfig) :=
  [("Points", ⟨[0, 12, 13], ["points", "pts"]⟩),
   ("Rebounds", ⟨[1, 7, 8], ["rebounds", "reb", "totalRebounds"]⟩),
   ("Assists", ⟨[2, 5, 6], ["assists", "ast"]⟩),
   ("Steals", ⟨[3, 9, 10], ["steals", "stl"]⟩),
   ("Blocks", ⟨[4, 11], ["blocks", "blk"]⟩)]

def football_categories : List (String × StatCatConfig) :=
  [("Passing Yards", ⟨[0, 1, 8, 9], ["passingYards", "passYds"]⟩),
   ("Rushing Yards", ⟨[2, 3, 10, 11], ["rushingYards", "rushYds"]⟩),
   ("Receiving Yards", ⟨[4, 5, 12, 13], ["receivingYards", "recYds"]⟩),
   ("Touchdowns", ⟨[6, 7, 14, 15], ["touchdowns", "td"]⟩),
   ("Tackles", ⟨[16, 17, 18], ["tackles", "tkl"]⟩)]

def soccer_categories : List (String × StatCatConfig) :=
  [("Goals", ⟨[0, 1], ["goals", "g"]⟩),
   ("Assists", ⟨[2, 3], ["assists", "a"]⟩),
   ("Shots", ⟨[4, 5], ["shots", "sh"]⟩),
   ("Saves", ⟨[6, 7, 8], ["saves", "sv"]⟩),
   ("Yellow Cards", ⟨[9, 10], ["yellowCards", "yc"]⟩)]

def hockey_categories : List (String × StatCatConfig) :=
  [("Goals", ⟨[0, 1], ["goals", "g"]⟩),
   ("Assists", ⟨[2, 3], ["assists", "a"]⟩),
   ("Points", ⟨[4, 5], ["points", "pts"]⟩),
   ("Saves", ⟨[6, 7, 8], ["saves", "sv"]⟩),
   ("Penalty Minutes", ⟨[9, 10], ["penaltyMinutes", "pim"]⟩)]

def generic_categories : List (String × StatCatConfig) :=
  [("Performance", ⟨[0, 1, 2], ["stat1"]⟩),
   ("Key Stats", ⟨[3, 4, 5], ["stat2"]⟩),
   ("Other Stats", ⟨[6, 7, 8], ["stat3"]⟩)]

/-- `_extract_leaders_from_boxscore` (lines 887-937): sport dispatch over
`boxscore.players`. -/
def extract_leaders_from_boxscore (bs : Boxscore) (sport : String) :
    List (String × List Leader) :=
  let players := bs.players.getD []
  if players = [] then []
  else
    let s := lowerStr sport
    if s = "mlb" then extract_mlb_leaders players
    else if s = "nba" ∨ s = "wnba" then extract_leaders_by_indices players basketball_categories
    else if s = "nfl" then extract_leaders_by_indices players football_categories
    else if s = "mls" ∨ s = "premier league" ∨ s = "la liga" then
      extract_leaders_by_indices players soccer_categories
    else if s = "nhl" then extract_leaders_by_indices players hockey_categories
    else extract_leaders_by_indices players generic_categories

/-! ### Strategy 4: the header fallback
(`_extract_leaders_from_header`, lines 1202-1245) -/

def extract_leaders_from_header (h : Header) : List (String × List Leader) :=
  match h.competitions with
  | some [] => []
  | comps =>
    let competition := (comps.bind List.head?).getD ⟨[], none, none, none⟩
    let competitors := competition.competitors
    if 2 ≤ competitors.length then
      let home := (competitors.find? (fun c => c.homeAway = some "home")).getD ⟨none, none, none⟩
      let away := (competitors.find? (fun c => c.homeAway = some "away")).getD ⟨none, none, none⟩
      let home_score := home.score.getD "0"
      let away_score := away.score.getD "0"
      let home_name := (home.team.bind TeamInfo.abbreviation).getD "HOME"
      let away_name := (away.team.bind TeamInfo.abbreviation).getD "AWAY"
      if home_score ≠ "0" ∨ away_score ≠ "0" then
        let hsv := if home_score = "" then some (0 : Int) else parseIntPy home_score
        let asv := if away_score = "" then some (0 : Int) else parseIntPy away_score
        match hsv, asv with
        | some hi, some ai =>
          if ai ≤ hi then
            [("Team Scoring", [⟨"Team Score", home_score, home_name⟩,
              ⟨"Team Score", away_score, away_name⟩])]
          else
            [("Team Scoring", [⟨"Team Score", away_score, away_name⟩,
              ⟨"Team Score", home_score, home_name⟩])]
        | _, _ => []
      else []
    else []

/-- `_parse_game_leaders` (lines 690-755): MLB is special-cased to the
box-score strategy only; every other sport runs the four-strategy
chain, first non-empty result wins. -/
def parse_game_leaders (data : DetailPayload) (sport : String) :
    List (String × List Leader) :=
  if lowerStr sport = "mlb" then
    match data.boxscore with
    | some bs =>
      match bs.players with
      | some _ => extract_leaders_from_boxscore bs sport
      | none => []
    | none => []
  else
    let s1 := match data.leaders with
      | some ld => if ld ≠ [] then parse_leaders_from_main_array ld else []
      | none => []
    if s1 ≠ [] then s1
    else
      let s2 := match data.boxscore with
        | some bs =>
          match bs.players with
          | some _ => extract_leaders_from_boxscore bs sport
          | none => []
        | none => []
      if s2 ≠ [] then s2
      else
        let s3 := match data.boxscore with
          | some bs => extract_leaders_from_boxscore_nested bs
          | none => []
        if s3 ≠ [] then s3
        else
          match data.header with
          | some h => extract_leaders_from_header h
          | none => []

/-! ## The detailed-game boundary
(`_parse_box_score`, `_parse_team_stats`, `_parse_scoring_summary`,
`_parse_detailed_game_data`, `_find_team_game`,
`get_detailed_game_data`, lines 487-668 and 1247-1266) -/

structure TeamBoxStat where
  name : String
  display_name : String
  value : String
deriving DecidableEq

structure TeamBox where
  team_name : String
  team_abbr : String
  statistics : List TeamBoxStat
deriving DecidableEq

/-- `_parse_box_score` (lines 637-664). -/
def parse_box_score (box_score : Boxscore) : List TeamBox :=
  box_score.teams.map (fun td =>
    { team_name := (td.team.bind TeamInfo.displayName).getD "Unknown"
      team_abbr := (td.team.bind TeamInfo.abbreviation).getD ""
      statistics := td.statistics.map (fun st =>
        ⟨st.name.getD "", st.displayName.getD "", st.displayValue.getD "0"⟩) })

/-- `stat.get('displayName', stat.get('name', ''))`. -/
def statKeyOf (st : BStat) : String :=
  match st.displayName with
  | some v => v
  | none => st.name.getD ""

/-- Python dict assignment `m[k] = v`. -/
def upsertStat (m : List (String × String)) (k v : String) : List (String × String) :=
  if m.any (fun p => p.1 = k) then m.map (fun p => if p.1 = k then (k, v) else p)
  else m ++ [(k, v)]

/-- `_parse_team_stats` (lines 666-688). -/
def parse_team_stats (data : DetailPayload) : List (String × List (String × String)) :=
  match data.boxscore with
  | none => []
  | some bs =>
    bs.teams.foldl (fun acc td =>
      let tname := (td.team.bind TeamInfo.displayName).getD ""
      let stats := td.statistics.foldl (fun sacc st =>
        upsertStat sacc (statKeyOf st) (st.displayValue.getD "0")) []
      if acc.any (fun p => p.1 = tname) then
        acc.map (fun p => if p.1 = tname then (tname, stats) else p)
      else acc ++ [(tname, stats)]) []

structure ScoringPlay where
  period : String
  clock : String
  team : String
  description : String
  score_value : Int
deriving DecidableEq

/-- `_parse_scoring_summary` (lines 1247-1266). -/
def parse_scoring_summary (data : DetailPayload) : List ScoringPlay :=
  match data.scoringPlays with
  | none => []
  | some plays =>
    plays.map (fun p =>
      ⟨p.periodDisplayValue.getD "", p.clockDisplayValue.getD "", p.teamAbbreviation.getD "",
        p.text.getD "", p.scoreValue.getD 0⟩)

structure DTeamOut where
  name : String
  short_name : String
  score : String
  logo : String
deriving DecidableEq

structure DStatusOut where
  display : String
  state : String
  period : Int
  clock : String
  completed : Bool
deriving DecidableEq

structure DVenueOut where
  name : String
  city : String
  state : String
deriving DecidableEq

structure DetailedGame where
  home_team : DTeamOut
  away_team : DTeamOut
  status : DStatusOut
  venue : DVenueOut
  date : String
  box_score : Option (List TeamBox)
  team_stats : List (String × List (String × String))
  leaders : List (String × List Leader)
  scoring_summary : List ScoringPlay
deriving DecidableEq

/-- The two result shapes of the detail boundary: a parsed game object
or an error object. -/
inductive DetailResult where
  | ok (d : DetailedGame)
  | err (msg : String)
deriving DecidableEq

def mkDTeamOut (c : HeaderCompetitor) : DTeamOut :=
  { name := (c.team.bind TeamInfo.displayName).getD "Unknown"
    short_name := (c.team.bind TeamInfo.abbreviation).getD ""
    score := c.score.getD "0"
    logo := (c.team.bind TeamInfo.logo).getD "" }

/-- `_parse_detailed_game_data` (lines 570-635): the `IndexError` raised
by `competitions[0]` on a present-but-empty list is the one exception
its `except` can see, and it is converted to an error object. -/
def parse_detailed_game_data (data : DetailPayload) (sport : String) : DetailResult :=
  let header := data.header.getD ⟨none⟩
  match header.competitions with
  | some [] => .err "Error parsing game data"
  | comps =>
    let competition := (comps.bind List.head?).getD ⟨[], none, none, none⟩
    let competitors := competition.competitors
    let home := (competitors.find? (fun c => c.homeAway = some "home")).getD ⟨none, none, none⟩
    let away := (competitors.find? (fun c => c.homeAway = some "away")).getD ⟨none, none, none⟩
    let status := competition.status
    .ok
      { home_team := mkDTeamOut home
        away_team := mkDTeamOut away
        status :=
          { display := (status.bind DStatus.detail).getD "Unknown"
            state := (status.bind DStatus.name).getD "STATUS_SCHEDULED"
            period := (status.bind DStatus.period).getD 0
            clock := (status.bind DStatus.displayClock).getD ""
            completed := (status.bind DStatus.completed).getD false }
        venue :=
          { name := (competition.venue.bind DVenue.fullName).getD "TBD"
            city := (competition.venue.bind DVenue.city).getD ""
            state := (competition.venue.bind DVenue.state).getD "" }
        date := competition.date.getD ""
        box_score :=
          match data.boxscore with
          | some bs => some (parse_box_score bs)
          | none => none
        team_stats := parse_team_stats data
        leaders := parse_game_leaders data sport
        scoring_summary := parse_scoring_summary data }

inductive FindResult where
  | found (game_id : Option String) (ev : Event)
  | err (msg : String)
deriving DecidableEq

/-- The event scan of `_find_team_game`: the first event with a
matching competitor wins; `competitions[0]` on an explicitly empty list
raises past the per-day handler. -/
def findEventMatch (team_name : String) : List Event → Except PyErr (Option Event)
  | [] => .ok none
  | ev :: rest =>
    match firstCompetition ev with
    | .error e => .error e
    | .ok comp =>
      if comp.competitors.any (fun c => team_name_matches team_name (c.teamDisplayName.getD ""))
      then .ok (some ev)
      else findEventMatch team_name rest

/-- The five scoreboard days fetched by `_find_team_game` (offsets
-2 .. +2). -/
def detailWindowOffsets : List Int := [-2, -1, 0, 1, 2]

/-- `_find_team_game` (lines 532-568): per-day failures are skipped, an
uncaught exception becomes an error object via the outer handler, and a
full scan with no match yields "No recent games found". -/
def find_team_game (team_name : String) : List (Except Unit Scoreboard) → FindResult
  | [] => .err "No recent games found"
  | d :: ds =>
    match d with
    | .error _ => find_team_game team_name ds
    | .ok sb =>
      match findEventMatch team_name sb.events with
      | .error .caught => find_team_game team_name ds
      | .error .uncaught => .err "Error finding game"
      | .ok (some ev) => .found ev.id ev
      | .ok none => find_team_game team_name ds

/-- `get_detailed_game_data` (lines 487-530). -/
def get_detailed_game_data (sport team_name : String)
    (net : Int → Except Unit Scoreboard)
    (summaryNet : Option String → Except Unit DetailPayload) : DetailResult :=
  if ¬ supported_sports.contains (lowerStr sport) then .err "Sport not supported"
  else
    match find_team_game team_name (detailWindowOffsets.map net) with
    | .err e => .err e
    | .found gid _ =>
      match summaryNet gid with
      | .error _ => .err "Network error"
      | .ok data => parse_detailed_game_data data sport

/-! ## Claim-support definitions -/

/-- Every competitor of the event's first competition carries the `id`
and `team.displayName` keys that `_get_opponent` indexes directly. -/
def eventCompetitorsWellFormed (ev : Event) : Bool :=
  match ev.competitions with
  | some (comp :: _) => comp.competitors.all (fun c => c.id.isSome ∧ c.teamDisplayName.isSome)
  | _ => true

/-- The numeric reading of a rendered stat value (0 if unparseable). -/
def valKey (v : String) : Rat := (parseNum v).getD 0

/-- A scheduled game's record used in several concrete checks. -/
def twoTeams : List Competitor :=
  [⟨some "1", some "Miami Heat", some "88"⟩, ⟨some "2", some "Boston Celtics", some "90"⟩]

/-- A fetched event whose status-type name is present but unrecognized. -/
def postponedEvent : Event :=
  ⟨some "401", some [⟨twoTeams, some "Kaseya Center"⟩], some "2024-05-01T23:00Z",
    some "Postponed", some "STATUS_POSTPONED"⟩

/-- A fetched event carrying no status-type name at all. -/
def nameLessEvent : Event :=
  ⟨some "402", some [⟨twoTeams, some "Kaseya Center"⟩], some "2024-05-02T23:00Z",
    none, none⟩

/-- A scheduled event whose payload carries real numeric scores. -/
def scheduledScoredEvent : Event :=
  ⟨some "403", some [⟨twoTeams, some "Kaseya Center"⟩], some "2024-05-03T23:00Z",
    some "Sat, May 3", some "STATUS_SCHEDULED"⟩

/-- An in-progress event (same teams). -/
def liveEvent : Event :=
  ⟨some "404", some [⟨twoTeams, some "Kaseya Center"⟩], some "2024-05-01T23:30Z",
    some "Q3", some "STATUS_IN_PROGRESS"⟩

/-- A matching event whose date fails to parse (bad month). -/
def badDateEvent : Event :=
  ⟨some "405", some [⟨twoTeams, some "Kaseya Center"⟩], some "2024-13-01T23:00Z",
    some "Q1", some "STATUS_IN_PROGRESS"⟩

/-- Box-score input for the C6 counterexample: the first candidate index
holds an unparseable value, the second a parseable positive one. -/
def cexPlayersC6 : List TeamPlayers :=
  [⟨some ⟨some "AAA", none, none, none⟩,
    [⟨some "g", [⟨some "P1", [some "abc", some "5"]⟩]⟩]⟩]

def cexCatsC6 : List (String × StatCatConfig) := [("Cat", ⟨[0, 1], ["x"]⟩)]

/-- Box-score input for the C6 amended witness: five parseable values. -/
def wellPlayersC6 : List TeamPlayers :=
  [⟨some ⟨some "AAA", none, none, none⟩,
    [⟨some "g", [⟨some "A", [some "3"]⟩, ⟨some "B", [some "7"]⟩, ⟨some "C", [some "3"]⟩,
      ⟨some "D", [some "10"]⟩, ⟨some "E", [some "2.5"]⟩]⟩]⟩]

def wellCatsC6 : List (String × StatCatConfig) := [("Cat", ⟨[0], ["x"]⟩)]

/-- Concrete games for the selection-claim witnesses. -/
def c1Live : Game := ⟨"T", "10", "O1", "8", "Q2", "STATUS_IN_PROGRESS", 1000, "V"⟩

def c1Early : Game := ⟨"T", "-", "O2", "-", "May 6", "STATUS_SCHEDULED", 2000, "V"⟩

def c1Late : Game := ⟨"T", "-", "O3", "-", "May 7", "STATUS_SCHEDULED", 3000, "V"⟩

def c1Games : List Game := [c1Late, c1Live, c1Early]

def c2Today : Game := ⟨"T", "101", "O1", "99", "Final", "STATUS_FINAL", 1714550000, "V"⟩

def c2Yesterday : Game := ⟨"T", "90", "O2", "95", "Final", "STATUS_FINAL", 1714420000, "V"⟩

def c2Games : List Game := [c2Yesterday, c2Today]

/-- The record `get_scores` collects for `postponedEvent`. -/
def postponedGame : Game :=
  ⟨"Miami Heat", "-", "Boston Celtics", "-", "Postponed", "STATUS_POSTPONED",
    1714586400, "Kaseya Center"⟩

/-- The record `get_scores` collects for `nameLessEvent`. -/
def nameLessGame : Game :=
  ⟨"Miami Heat", "-", "Boston Celtics", "-", "Scheduled", "STATUS_SCHEDULED",
    1714672800, "Kaseya Center"⟩

/-- The record `get_scores` collects for `scheduledScoredEvent`: the
placeholder scores despite the payload's "88"/"90". -/
def scheduledScoredGame : Game :=
  ⟨"Miami Heat", "-", "Boston Celtics", "-", "Sat, May 3", "STATUS_SCHEDULED",
    1714759200, "Kaseya Center"⟩

/-- A detail payload with a non-empty basketball-shaped top-level
`leaders` array and a boxscore whose `players` section is empty. -/
def mlbGuardPayload : DetailPayload :=
  ⟨none, some ⟨[], some [], none⟩,
    some [⟨some ⟨some "BOS", none, none, none⟩,
      [⟨some "Points", none, [⟨none, some "Tatum", none, some "30", none, none⟩]⟩]⟩],
    none⟩

/-! ## Claim theorems -/

/-! ### Helper lemmas -/

/-- Any record produced by the competitor scan is a `mkGame`. -/
theorem scan_ok_some (team_name : String) (ev : Event) (comp : Competition) (g : Game) :
    ∀ l : List Competitor, scanCompetitors team_name ev comp l = .ok (some g) →
      ∃ dn c opp d, g = mkGame dn c opp ev comp d := by
  intro l
  induction l with
  | nil => intro h; simp [scanCompetitors] at h
  | cons c rest ih =>
    intro h
    unfold scanCompetitors at h
    by_cases hm : team_name_matches team_name (c.teamDisplayName.getD "") = true
    · rw [if_pos hm] at h
      cases hop : get_opponent comp.competitors c with
      | error e => rw [hop] at h; cases h
      | ok opp =>
        rw [hop] at h
        dsimp only at h
        by_cases hds : ev.date.getD "" = ""
        · rw [if_pos hds] at h; exact ih h
        · rw [if_neg hds] at h
          cases hpd : parse_game_date (ev.date.getD "") with
          | none => rw [hpd] at h; exact ih h
          | some d =>
            rw [hpd] at h
            injection h with h'
            injection h' with h''
            exact ⟨c.teamDisplayName.getD "", c, opp, d, h''.symm⟩
    · rw [if_neg hm] at h; exact ih h

/-- Any record produced by event processing is a `mkGame` over that
event's first competition. -/
theorem processEvent_ok_some (team_name : String) (ev : Event) (g : Game)
    (h : processEvent team_name ev = .ok (some g)) :
    ∃ comp dn c opp d, firstCompetition ev = .ok comp ∧ g = mkGame dn c opp ev comp d := by
  unfold processEvent at h
  cases hfc : firstCompetition ev with
  | error e => rw [hfc] at h; cases h
  | ok comp =>
    rw [hfc] at h
    obtain ⟨dn, c, opp, d, hg⟩ := scan_ok_some team_name ev comp g comp.competitors h
    exact ⟨comp, dn, c, opp, d, rfl, hg⟩

/-- `list[0]` of a filtered list is the first element satisfying the
predicate. -/
theorem head?_filter_eq_find? (p : Game → Bool) (l : List Game) :
    (l.filter p).head? = l.find? p := by
  induction l with
  | nil => rfl
  | cons a l ih =>
    by_cases h : p a = true <;> simp [List.filter_cons, List.find?_cons, h, ih]

theorem sort_eq_nil_iff {α : Type} (r : α → α → Prop) [DecidableRel r] (l : List α) :
    l.insertionSort r = [] ↔ l = [] := by
  constructor <;> intro h
  · have hp := List.perm_insertionSort r l
    rw [h] at hp
    exact hp.symm.eq_nil
  · rw [h]; rfl

/-- The head of the ascending sort is a member attaining the minimum
start time. -/
theorem sortAsc_head_min (l : List Game) (x : Game)
    (h : (l.insertionSort gameDateAsc).head? = some x) :
    x ∈ l ∧ ∀ g ∈ l, x.game_date ≤ g.game_date := by
  have hs := List.sorted_insertionSort gameDateAsc l
  have hp := List.perm_insertionSort gameDateAsc l
  cases hsort : l.insertionSort gameDateAsc with
  | nil => rw [hsort] at h; cases h
  | cons y ys =>
    rw [hsort] at h hs hp
    obtain rfl : y = x := by injection h
    refine ⟨hp.mem_iff.mp (List.mem_cons_self y ys), ?_⟩
    intro g hg
    rcases List.mem_cons.mp (hp.mem_iff.mpr hg) with heq | hmem
    · rw [heq]
    · exact List.rel_of_sorted_cons hs g hmem

/-- The head of the descending sort is a member attaining the maximum
start time. -/
theorem sortDesc_head_max (l : List Game) (x : Game)
    (h : (l.insertionSort gameDateDesc).head? = some x) :
    x ∈ l ∧ ∀ g ∈ l, g.game_date ≤ x.game_date := by
  have hs := List.sorted_insertionSort gameDateDesc l
  have hp := List.perm_insertionSort gameDateDesc l
  cases hsort : l.insertionSort gameDateDesc with
  | nil => rw [hsort] at h; cases h
  | cons y ys =>
    rw [hsort] at h hs hp
    obtain rfl : y = x := by injection h
    refine ⟨hp.mem_iff.mp (List.mem_cons_self y ys), ?_⟩
    intro g hg
    rcases List.mem_cons.mp (hp.mem_iff.mpr hg) with heq | hmem
    · rw [heq]
    · exact List.rel_of_sorted_cons hs g hmem

/-- The head of a post-sort filter of the descending sort is a member
satisfying the predicate and attaining the maximum start time among
such members. -/
theorem sortDesc_filter_head_max (l : List Game) (q : Game → Bool) (x : Game)
    (h : (((l.insertionSort gameDateDesc).filter q).head?) = some x) :
    x ∈ l ∧ q x = true ∧ ∀ g ∈ l, q g = true → g.game_date ≤ x.game_date := by
  have hs : ((l.insertionSort gameDateDesc).filter q).Sorted gameDateDesc :=
    (List.sorted_insertionSort gameDateDesc l).filter q
  have hp := List.perm_insertionSort gameDateDesc l
  cases hsort : (l.insertionSort gameDateDesc).filter q with
  | nil => rw [hsort] at h; cases h
  | cons y ys =>
    rw [hsort] at h hs
    obtain rfl : y = x := by injection h
    have hxmem : y ∈ (l.insertionSort gameDateDesc).filter q := by
      rw [hsort]; exact List.mem_cons_self y ys
    obtain ⟨hx1, hx2⟩ := List.mem_filter.mp hxmem
    refine ⟨hp.mem_iff.mp hx1, hx2, ?_⟩
    intro g hg hq
    have hg' : g ∈ (l.insertionSort gameDateDesc).filter q :=
      List.mem_filter.mpr ⟨hp.mem_iff.mpr hg, hq⟩
    rw [hsort] at hg'
    rcases List.mem_cons.mp hg' with heq | hmem
    · rw [heq]
    · exact List.rel_of_sorted_cons hs g hmem

/-- When some SCHEDULED game exists, the head of the sorted upcoming
list is a SCHEDULED member with the earliest start time. -/
theorem next_game_spec (games : List Game) (u : Game) (hu : u ∈ games)
    (hup : isUpcomingGame u = true) :
    ∃ nx, ((games.filter isUpcomingGame).insertionSort gameDateAsc).head? = some nx ∧
      nx ∈ games ∧ isUpcomingGame nx = true ∧
      ∀ g ∈ games, isUpcomingGame g = true → nx.game_date ≤ g.game_date := by
  have hne : (games.filter isUpcomingGame).insertionSort gameDateAsc ≠ [] := by
    intro hnil
    rw [sort_eq_nil_iff] at hnil
    exact absurd hnil (List.ne_nil_of_mem (List.mem_filter.mpr ⟨hu, hup⟩))
  cases hsort : (games.filter isUpcomingGame).insertionSort gameDateAsc with
  | nil => exact absurd hsort hne
  | cons y ys =>
    obtain ⟨hy1, hy2⟩ := sortAsc_head_min (games.filter isUpcomingGame) y (by rw [hsort]; rfl)
    obtain ⟨hym, hyu⟩ := List.mem_filter.mp hy1
    refine ⟨y, rfl, hym, hyu, ?_⟩
    intro g hg hq
    exact hy2 g (List.mem_filter.mpr ⟨hg, hq⟩)

/-- When no SCHEDULED game exists the sorted upcoming list is empty. -/
theorem next_game_none (games : List Game)
    (h : ∀ g ∈ games, isUpcomingGame g = false) :
    ((games.filter isUpcomingGame).insertionSort gameDateAsc).head? = none := by
  have : games.filter isUpcomingGame = [] := by
    rw [List.filter_eq_nil_iff]
    intro a ha
    simp [h a ha]
  rw [this]
  rfl

theorem mkGame_status_type (dn : String) (c : Competitor) (opp : Opp) (ev : Event)
    (comp : Competition) (d : Int) :
    (mkGame dn c opp ev comp d).status_type = ev.statusName.getD "STATUS_SCHEDULED" := rfl

/-- A status name outside the live/final set renders both scores as the
placeholder. -/
theorem mkGame_placeholder (dn : String) (c : Competitor) (opp : Opp) (ev : Event)
    (comp : Competition) (d : Int)
    (h : liveOrFinal.contains (ev.statusName.getD "STATUS_SCHEDULED") = false) :
    (mkGame dn c opp ev comp d).team_score = "-" ∧
    (mkGame dn c opp ev comp d).opponent_score = "-" := by
  have h' : ev.statusName.getD "STATUS_SCHEDULED" ∉ liveOrFinal := by simpa using h
  unfold mkGame
  simp [h']

/-- C1: for every game list containing at least one in-progress game
(status category IN_PROGRESS or HALFTIME), `select` returns as primary
the first in-progress game in upstream order, and as next the
earliest-by-start-time SCHEDULED game when at least one SCHEDULED game
exists, otherwise no next game. -/
theorem c1_in_progress_priority (games : List Game) (now : Int)
    (h : ∃ g ∈ games, isInProgressGame g = true) :
    (select_primary_and_next_games games now).1 = games.find? isInProgressGame ∧
    ((∀ g ∈ games, isUpcomingGame g = false) →
      (select_primary_and_next_games games now).2 = none) ∧
    (∀ u ∈ games, isUpcomingGame u = true →
      ∃ nx, (select_primary_and_next_games games now).2 = some nx ∧ nx ∈ games ∧
        isUpcomingGame nx = true ∧
        ∀ g ∈ games, isUpcomingGame g = true → nx.game_date ≤ g.game_date) := by
  obtain ⟨w, hw, hwip⟩ := h
  have hne : games.filter isInProgressGame ≠ [] :=
    List.ne_nil_of_mem (List.mem_filter.mpr ⟨hw, hwip⟩)
  have hsel : select_primary_and_next_games games now =
      ((games.filter isInProgressGame).head?,
       ((games.filter isUpcomingGame).insertionSort gameDateAsc).head?) := by
    simp only [select_primary_and_next_games]
    rw [if_pos hne]
  rw [hsel]
  exact ⟨head?_filter_eq_find? _ _, fun hnone => next_game_none games hnone,
    fun u hu hup => next_game_spec games u hu hup⟩

/-- C1 witness: one IN_PROGRESS game between two SCHEDULED games. -/
theorem c1_witness :
    (select_primary_and_next_games c1Games 500).1 = some c1Live ∧
    (select_primary_and_next_games c1Games 500).2 = some c1Early :=
  ⟨((c1_in_progress_priority c1Games 500 ⟨c1Live, by decide, by decide⟩).1).trans (by decide),
   by decide⟩

/-- C2: for every game list with no in-progress game and at least one
completed game (FINAL or FINAL_OT): if some completed game started
within [today 00:00, tomorrow 00:00) Eastern relative to the current
instant, `select` returns as primary the most recent such game;
otherwise it returns the most recent completed game overall; in both
sub-cases next is the earliest SCHEDULED game when one exists. -/
theorem c2_completed_priority (games : List Game) (now : Int)
    (hnip : ∀ g ∈ games, isInProgressGame g = false)
    (hc : ∃ g ∈ games, isCompletedGame g = true) :
    ((∃ g ∈ games, isCompletedGame g = true ∧ inTodayWindow now g = true) →
      ∃ p, (select_primary_and_next_games games now).1 = some p ∧ p ∈ games ∧
        isCompletedGame p = true ∧ inTodayWindow now p = true ∧
        ∀ g ∈ games, isCompletedGame g = true → inTodayWindow now g = true →
          g.game_date ≤ p.game_date) ∧
    ((∀ g ∈ games, isCompletedGame g = true → inTodayWindow now g = false) →
      ∃ p, (select_primary_and_next_games games now).1 = some p ∧ p ∈ games ∧
        isCompletedGame p = true ∧
        ∀ g ∈ games, isCompletedGame g = true → g.game_date ≤ p.game_date) ∧
    (∀ u ∈ games, isUpcomingGame u = true →
      ∃ nx, (select_primary_and_next_games games now).2 = some nx ∧ nx ∈ games ∧
        isUpcomingGame nx = true ∧
        ∀ g ∈ games, isUpcomingGame g = true → nx.game_date ≤ g.game_date) ∧
    ((∀ g ∈ games, isUpcomingGame g = false) →
      (select_primary_and_next_games games now).2 = none) := by
  obtain ⟨w, hw, hwc⟩ := hc
  have hipnil : games.filter isInProgressGame = [] := by
    rw [List.filter_eq_nil_iff]
    intro a ha
    simp [hnip a ha]
  have hcompne : (games.filter isCompletedGame).insertionSort gameDateDesc ≠ [] := by
    rw [Ne, sort_eq_nil_iff]
    exact List.ne_nil_of_mem (List.mem_filter.mpr ⟨hw, hwc⟩)
  have hbase : select_primary_and_next_games games now =
      (if ((games.filter isCompletedGame).insertionSort gameDateDesc).filter
          (inTodayWindow now) ≠ [] then
        ((((games.filter isCompletedGame).insertionSort gameDateDesc).filter
          (inTodayWindow now)).head?,
         ((games.filter isUpcomingGame).insertionSort gameDateAsc).head?)
      else
        (((games.filter isCompletedGame).insertionSort gameDateDesc).head?,
         ((games.filter isUpcomingGame).insertionSort gameDateAsc).head?)) := by
    simp only [select_primary_and_next_games]
    rw [if_neg (fun hcon => hcon hipnil), if_pos hcompne]
  have hsnd : (select_primary_and_next_games games now).2 =
      ((games.filter isUpcomingGame).insertionSort gameDateAsc).head? := by
    rw [hbase, apply_ite Prod.snd, ite_self]
  refine ⟨?_, ?_, ?_, ?_⟩
  · intro ⟨g, hg, hgc, hgt⟩
    have htodne : ((games.filter isCompletedGame).insertionSort gameDateDesc).filter
        (inTodayWindow now) ≠ [] := by
      apply List.ne_nil_of_mem (a := g)
      exact List.mem_filter.mpr
        ⟨(List.mem_insertionSort gameDateDesc).mpr (List.mem_filter.mpr ⟨hg, hgc⟩), hgt⟩
    have hfst : (select_primary_and_next_games games now).1 =
        ((((games.filter isCompletedGame).insertionSort gameDateDesc).filter
          (inTodayWindow now)).head?) := by
      rw [hbase, if_pos htodne]
    cases hhd : (((games.filter isCompletedGame).insertionSort gameDateDesc).filter
        (inTodayWindow now)).head? with
    | none =>
      rw [List.head?_eq_none_iff] at hhd
      exact absurd hhd htodne
    | some p =>
      obtain ⟨hp1, hp2, hp3⟩ := sortDesc_filter_head_max _ _ p hhd
      obtain ⟨hpg, hpc⟩ := List.mem_filter.mp hp1
      refine ⟨p, hfst.trans hhd, hpg, hpc, hp2, ?_⟩
      intro g' hg' hgc' hgt'
      exact hp3 g' (List.mem_filter.mpr ⟨hg', hgc'⟩) hgt'
  · intro hnone
    have htodnil : ((games.filter isCompletedGame).insertionSort gameDateDesc).filter
        (inTodayWindow now) = [] := by
      rw [List.filter_eq_nil_iff]
      intro a ha
      obtain ⟨ha1, ha2⟩ := List.mem_filter.mp ((List.mem_insertionSort gameDateDesc).mp ha)
      simp [hnone a ha1 ha2]
    have hfst : (select_primary_and_next_games games now).1 =
        (((games.filter isCompletedGame).insertionSort gameDateDesc).head?) := by
      rw [hbase, if_neg (fun hcon => hcon htodnil)]
    cases hhd : ((games.filter isCompletedGame).insertionSort gameDateDesc).head? with
    | none =>
      rw [List.head?_eq_none_iff, sort_eq_nil_iff] at hhd
      exact absurd (List.mem_filter.mpr ⟨hw, hwc⟩) (hhd ▸ List.not_mem_nil w)
    | some p =>
      obtain ⟨hp1, hp2⟩ := sortDesc_head_max _ p hhd
      obtain ⟨hpg, hpc⟩ := List.mem_filter.mp hp1
      refine ⟨p, hfst.trans hhd, hpg, hpc, ?_⟩
      intro g' hg' hgc'
      exact hp2 g' (List.mem_filter.mpr ⟨hg', hgc'⟩)
  · intro u hu hup
    obtain ⟨nx, hnx, h1, h2, h3⟩ := next_game_spec games u hu hup
    exact ⟨nx, hsnd.trans hnx, h1, h2, h3⟩
  · intro hnone
    exact hsnd.trans (next_game_none games hnone)

/-- C2 witness: two FINAL games, one inside today's Eastern window and
one from the previous day; the primary is today's game. -/
theorem c2_witness :
    (∃ p, (select_primary_and_next_games c2Games 1714560000).1 = some p ∧ p ∈ c2Games ∧
      isCompletedGame p = true ∧ inTodayWindow 1714560000 p = true ∧
      ∀ g ∈ c2Games, isCompletedGame g = true → inTodayWindow 1714560000 g = true →
        g.game_date ≤ p.game_date) ∧
    (select_primary_and_next_games c2Games 1714560000).1 = some c2Today :=
  ⟨(c2_completed_priority c2Games 1714560000 (by decide) ⟨c2Today, by decide, by decide⟩).1
      ⟨c2Today, by decide, by decide, by decide⟩,
   by decide⟩

/-- C4: for every fetched game whose status category is neither live
(IN_PROGRESS, HALFTIME) nor final (FINAL, FINAL_OT), both the team
score and the opponent score in the returned game record equal the
placeholder string "-", regardless of any numeric score (including
"0") present in the upstream payload. -/
theorem c4_placeholder_scores (team_name : String) (ev : Event) (g : Game)
    (h : processEvent team_name ev = .ok (some g))
    (hs : liveOrFinal.contains g.status_type = false) :
    g.team_score = "-" ∧ g.opponent_score = "-" := by
  obtain ⟨comp, dn, c, opp, d, _, rfl⟩ := processEvent_ok_some team_name ev g h
  rw [mkGame_status_type] at hs
  exact mkGame_placeholder dn c opp ev comp d hs

/-- C4 witness: a SCHEDULED event whose payload carries the real scores
"88"/"90" is collected with placeholder scores. -/
theorem c4_witness :
    processEvent "Miami Heat" scheduledScoredEvent = .ok (some scheduledScoredGame) ∧
    (twoTeams.map Competitor.score = [some "88", some "90"]) ∧
    scheduledScoredGame.team_score = "-" ∧ scheduledScoredGame.opponent_score = "-" :=
  ⟨by decide, by decide,
    c4_placeholder_scores "Miami Heat" scheduledScoredEvent scheduledScoredGame
      (by decide) (by decide)⟩

/-- C3 counterexample: an event whose status-type name is present but
unrecognized ("STATUS_POSTPONED") yields a record whose status category
is the verbatim upstream name, which the selector counts as none of the
five categories — not as SCHEDULED, contrary to the claim. -/
theorem c3_counterexample :
    processEvent "Miami Heat" postponedEvent = .ok (some postponedGame) ∧
    postponedGame.status_type = "STATUS_POSTPONED" ∧
    isUpcomingGame postponedGame = false ∧
    isInProgressGame postponedGame = false ∧
    isCompletedGame postponedGame = false := by decide

/-- C3 amended: the record's status category is the upstream status-type
name taken verbatim; only an *absent* name defaults to SCHEDULED, and a
present but unrecognized name is classified into none of the five
categories. -/
theorem c3_amended_status_verbatim (team_name : String) (ev : Event) (g : Game)
    (h : processEvent team_name ev = .ok (some g)) :
    g.status_type = ev.statusName.getD "STATUS_SCHEDULED" ∧
    (ev.statusName = none → isUpcomingGame g = true) ∧
    (∀ n, ev.statusName = some n →
      n ∉ (["STATUS_SCHEDULED", "STATUS_IN_PROGRESS", "STATUS_HALFTIME",
        "STATUS_FINAL", "STATUS_FINAL_OT"] : List String) →
      isUpcomingGame g = false ∧ isInProgressGame g = false ∧ isCompletedGame g = false) := by
  obtain ⟨comp, dn, c, opp, d, _, rfl⟩ := processEvent_ok_some team_name ev g h
  refine ⟨mkGame_status_type dn c opp ev comp d, ?_, ?_⟩
  · intro hn
    simp [isUpcomingGame, mkGame_status_type, hn]
  · intro n hn hmem
    simp only [List.mem_cons, List.mem_singleton, not_or] at hmem
    obtain ⟨h1, h2, h3, h4, h5⟩ := hmem
    simp [isUpcomingGame, isInProgressGame, isCompletedGame, mkGame_status_type, hn,
      h1, h2, h3, h4, h5]

/-- C3 amended witness: an event with no status-type name at all
defaults to the SCHEDULED category. -/
theorem c3_amended_witness :
    nameLessGame.status_type = "STATUS_SCHEDULED" ∧ isUpcomingGame nameLessGame = true :=
  ⟨(c3_amended_status_verbatim "Miami Heat" nameLessEvent nameLessGame (by decide)).1,
   (c3_amended_status_verbatim "Miami Heat" nameLessEvent nameLessGame (by decide)).2.1 rfl⟩

/-- Opponent resolution succeeds on competitor lists whose members all
carry `id` and `team.displayName`. -/
theorem get_opponent_ok (l : List Competitor) (cur : Competitor)
    (hall : ∀ t ∈ l, t.id.isSome = true ∧ t.teamDisplayName.isSome = true)
    (hcur : cur.id.isSome = true) :
    ∃ o, get_opponent l cur = .ok o := by
  induction l with
  | nil => exact ⟨⟨"Unknown", "0"⟩, rfl⟩
  | cons t rest ih =>
    obtain ⟨htid, htn⟩ := hall t (List.mem_cons_self t rest)
    obtain ⟨tid, htid'⟩ := Option.isSome_iff_exists.mp htid
    obtain ⟨cid, hcid'⟩ := Option.isSome_iff_exists.mp hcur
    obtain ⟨tn, htn'⟩ := Option.isSome_iff_exists.mp htn
    unfold get_opponent
    rw [htid', hcid']
    dsimp only
    by_cases hne : tid ≠ cid
    · rw [if_pos hne, htn']
      exact ⟨⟨tn, t.score.getD "0"⟩, rfl⟩
    · rw [if_neg hne]
      exact ih (fun x hx => hall x (List.mem_cons_of_mem t hx))

/-- The competitor scan yields no record for an event whose date is
absent or unparseable, provided the competitors are well-formed. -/
theorem scan_skips_bad_date (team_name : String) (bad : Event) (comp : Competition)
    (hall : ∀ c ∈ comp.competitors, c.id.isSome = true ∧ c.teamDisplayName.isSome = true)
    (hdate : bad.date.getD "" = "" ∨ parse_game_date (bad.date.getD "") = none) :
    ∀ l, (∀ c ∈ l, c ∈ comp.competitors) →
      scanCompetitors team_name bad comp l = .ok none := by
  intro l
  induction l with
  | nil => intro _; rfl
  | cons c rest ih =>
    intro hsub
    have ihr := ih (fun x hx => hsub x (List.mem_cons_of_mem c hx))
    unfold scanCompetitors
    by_cases hm : team_name_matches team_name (c.teamDisplayName.getD "") = true
    · rw [if_pos hm]
      obtain ⟨o, ho⟩ := get_opponent_ok comp.competitors c hall
        ((hall c (hsub c (List.mem_cons_self c rest))).1)
      rw [ho]
      dsimp only
      by_cases hds : bad.date.getD "" = ""
      · rw [if_pos hds]; exact ihr
      · rw [if_neg hds]
        rcases hdate with hd | hd
        · exact absurd hd hds
        · rw [hd]; exact ihr
    · rw [if_neg hm]; exact ihr

/-- Event processing yields no record for a well-formed event whose
date is absent or unparseable. -/
theorem processEvent_skips_bad_date (team_name : String) (bad : Event)
    (hcomp : bad.competitions ≠ some [])
    (hwf : eventCompetitorsWellFormed bad = true)
    (hdate : bad.date.getD "" = "" ∨ parse_game_date (bad.date.getD "") = none) :
    processEvent team_name bad = .ok none := by
  unfold processEvent
  cases hbc : bad.competitions with
  | none =>
    have : firstCompetition bad = .ok ⟨[], none⟩ := by unfold firstCompetition; rw [hbc]
    rw [this]
    rfl
  | some l =>
    cases l with
    | nil => exact absurd hbc hcomp
    | cons comp rest =>
      have hfc : firstCompetition bad = .ok comp := by unfold firstCompetition; rw [hbc]
      rw [hfc]
      have hall : ∀ c ∈ comp.competitors, c.id.isSome = true ∧ c.teamDisplayName.isSome = true := by
        unfold eventCompetitorsWellFormed at hwf
        rw [hbc] at hwf
        intro c hcmem
        simpa using List.all_eq_true.mp hwf c hcmem
      exact scan_skips_bad_date team_name bad comp hall hdate comp.competitors (fun _ hx => hx)

theorem processEvents_cons (team_name : String) (e : Event) (rest : List Event) :
    processEvents team_name (e :: rest) =
      match processEvent team_name e with
      | .error er => ([], some er)
      | .ok none => processEvents team_name rest
      | .ok (some g) =>
        ((g :: (processEvents team_name rest).1, (processEvents team_name rest).2)) := rfl

/-- Dropping a skipped event leaves a day's processing unchanged. -/
theorem processEvents_splice (team_name : String) (bad : Event)
    (hskip : processEvent team_name bad = .ok none) :
    ∀ es1 es2, processEvents team_name (es1 ++ bad :: es2) =
      processEvents team_name (es1 ++ es2) := by
  intro es1
  induction es1 with
  | nil =>
    intro es2
    simp only [List.nil_append]
    rw [processEvents_cons, hskip]
  | cons e es1 ih =>
    intro es2
    simp only [List.cons_append]
    rw [processEvents_cons team_name e (es1 ++ bad :: es2),
      processEvents_cons team_name e (es1 ++ es2), ih es2]

/-- Dropping a skipped event from one day's scoreboard leaves the whole
window's collection unchanged. -/
theorem collectWindow_splice (team_name : String) (bad : Event)
    (hskip : processEvent team_name bad = .ok none) :
    ∀ ds1 : List (Except Unit Scoreboard), ∀ es1 es2 ds2,
      collectWindow team_name (ds1 ++ Except.ok ⟨es1 ++ bad :: es2⟩ :: ds2) =
      collectWindow team_name (ds1 ++ Except.ok ⟨es1 ++ es2⟩ :: ds2) := by
  have hcw : ∀ (d : Except Unit Scoreboard) (ds : List (Except Unit Scoreboard)),
      collectWindow team_name (d :: ds) =
        (match (processDay team_name d).2 with
         | some e => ((processDay team_name d).1, some e)
         | none => ((processDay team_name d).1 ++ (collectWindow team_name ds).1,
             (collectWindow team_name ds).2)) := fun _ _ => rfl
  intro ds1 es1 es2 ds2
  have hpd : processDay team_name (Except.ok ⟨es1 ++ bad :: es2⟩) =
      processDay team_name (Except.ok ⟨es1 ++ es2⟩) := by
    unfold processDay
    dsimp only
    rw [processEvents_splice team_name bad hskip es1 es2]
  induction ds1 with
  | nil =>
    simp only [List.nil_append]
    rw [hcw, hcw, hpd]
  | cons d ds1 ih =>
    simp only [List.cons_append]
    rw [hcw d (ds1 ++ Except.ok ⟨es1 ++ bad :: es2⟩ :: ds2),
      hcw d (ds1 ++ Except.ok ⟨es1 ++ es2⟩ :: ds2), ih]

/-- C10: within one fetched day, a matching event whose upstream date
field is absent or fails to parse is silently omitted from the
collected game records, while the remaining events of that day and the
remaining days of the window are still processed and no error is
reported for the dropped event. -/
theorem c10_bad_date_event_silently_dropped (team_name : String) (bad : Event)
    (es1 es2 : List Event) (ds1 ds2 : List (Except Unit Scoreboard))
    (hcomp : bad.competitions ≠ some [])
    (hwf : eventCompetitorsWellFormed bad = true)
    (hdate : bad.date.getD "" = "" ∨ parse_game_date (bad.date.getD "") = none) :
    processEvents team_name (es1 ++ bad :: es2) = processEvents team_name (es1 ++ es2) ∧
    collectWindow team_name (ds1 ++ Except.ok ⟨es1 ++ bad :: es2⟩ :: ds2) =
      collectWindow team_name (ds1 ++ Except.ok ⟨es1 ++ es2⟩ :: ds2) := by
  have hskip := processEvent_skips_bad_date team_name bad hcomp hwf hdate
  exact ⟨processEvents_splice team_name bad hskip es1 es2,
    collectWindow_splice team_name bad hskip ds1 es1 es2 ds2⟩

/-- C10 witness: an event dated with an invalid month is dropped while
the surrounding day still yields its other record and no error. -/
theorem c10_witness :
    processEvents "Miami Heat" [scheduledScoredEvent, badDateEvent] =
      processEvents "Miami Heat" [scheduledScoredEvent] ∧
    processEvents "Miami Heat" [scheduledScoredEvent, badDateEvent] =
      ([scheduledScoredGame], none) :=
  ⟨(c10_bad_date_event_silently_dropped "Miami Heat" badDateEvent [scheduledScoredEvent] [] [] []
      (by decide) (by decide) (Or.inr (by decide))).1,
   by decide⟩

/-- C7: `matches(searchName, apiName)` returns a boolean for every pair
of input strings; in particular, when after normalization and stop-word
removal either filtered word set is empty and no earlier rule
(equality, substring containment) has matched, it returns `false`
rather than no value or an error. -/
theorem c7_team_name_matches_always_boolean (s a : String) :
    (team_name_matches s a = true ∨ team_name_matches s a = false) ∧
    (normalize_team_name s ≠ normalize_team_name a →
     isSubstrOf (normalize_team_name s) (normalize_team_name a) = false →
     isSubstrOf (normalize_team_name a) (normalize_team_name s) = false →
     (filteredWords (normalize_team_name s) = [] ∨
      filteredWords (normalize_team_name a) = []) →
     team_name_matches s a = false) := by
  constructor
  · cases team_name_matches s a
    · exact Or.inr rfl
    · exact Or.inl rfl
  · intro hne h1 h2 hemp
    unfold team_name_matches
    simp only [h1, h2, if_neg hne, Bool.false_eq_true, if_false]
    rcases hemp with h | h <;> simp [h]

/-- C7 witness: a pair of names made only of stop words reaches the
word-overlap branch and yields `false`. -/
theorem c7_witness : team_name_matches "the of" "fc and" = false :=
  (c7_team_name_matches_always_boolean "the of" "fc and").2
    (by decide) (by decide) (by decide) (Or.inl (by decide))

/-- C5: for sport MLB, `extractLeaders` uses only the box-score
strategy: whenever that strategy yields no categories, the result is
the empty map, even if the payload contains a non-empty top-level
`leaders` array that the strategy chain for other sports would accept. -/
theorem c5_mlb_boxscore_only (data : DetailPayload)
    (h : extract_leaders_from_boxscore (data.boxscore.getD ⟨[], none, none⟩) "mlb" = []) :
    parse_game_leaders data "mlb" = [] := by
  unfold parse_game_leaders
  rw [if_pos (by decide : lowerStr "mlb" = "mlb")]
  cases hbs : data.boxscore with
  | none => rfl
  | some bs =>
    rw [hbs] at h
    cases hp : bs.players with
    | none => simp [hp]
    | some ps => simpa [hp] using h

/-- C5 witness: a payload whose top-level `leaders` array holds a
basketball-shaped entry (accepted by the other sports' chain) still
produces an empty MLB result when the box-score strategy is empty. -/
theorem c5_witness :
    mlbGuardPayload.leaders.map List.length = some 1 ∧
    parse_game_leaders mlbGuardPayload "nba" ≠ [] ∧
    parse_game_leaders mlbGuardPayload "mlb" = [] :=
  ⟨by decide, by decide, c5_mlb_boxscore_only mlbGuardPayload (by decide)⟩

/-! ### Parser lemmas for C8 -/

theorem readDigits_zero (cs : List Char) : readDigits 0 cs = some (0, cs) := rfl

theorem readDigits_succ (k : Nat) (c : Char) (cs : List Char) :
    readDigits (k + 1) (c :: cs) =
      (match digitVal c with
       | none => none
       | some d =>
         match readDigits k cs with
         | none => none
         | some (v, r) => some (d * 10 ^ k + v, r)) := rfl

theorem expectChar_cons (ch x : Char) (cs : List Char) :
    expectChar ch (x :: cs) = if x = ch then some cs else none := rfl

theorem readDigits_append (ex : List Char) :
    ∀ (k : Nat) (cs : List Char) (v : Nat) (rest : List Char),
      readDigits k cs = some (v, rest) → readDigits k (cs ++ ex) = some (v, rest ++ ex) := by
  intro k
  induction k with
  | zero =>
    intro cs v rest h
    rw [readDigits_zero] at h
    injection h with h'
    rw [Prod.mk.injEq] at h'
    rw [readDigits_zero, ← h'.1, ← h'.2]
  | succ k ih =>
    intro cs v rest h
    cases cs with
    | nil => cases h
    | cons c t =>
      rw [readDigits_succ] at h
      rw [List.cons_append, readDigits_succ]
      cases hd : digitVal c with
      | none => rw [hd] at h; cases h
      | some d =>
        rw [hd] at h
        dsimp only at h ⊢
        cases hr : readDigits k t with
        | none => rw [hr] at h; cases h
        | some p =>
          obtain ⟨v', cs'⟩ := p
          rw [hr] at h
          dsimp only at h
          rw [ih t v' cs' hr]
          dsimp only
          injection h with h'
          rw [Prod.mk.injEq] at h'
          rw [← h'.1, ← h'.2]

theorem expectChar_append (ch : Char) (cs rest ex : List Char)
    (h : expectChar ch cs = some rest) : expectChar ch (cs ++ ex) = some (rest ++ ex) := by
  cases cs with
  | nil => cases h
  | cons c t =>
    rw [expectChar_cons] at h
    rw [List.cons_append, expectChar_cons]
    by_cases hc : c = ch
    · rw [if_pos hc] at h ⊢
      injection h with h'
      rw [h']
    · rw [if_neg hc] at h
      cases h

theorem readOptSeconds_append (cs rest ex : List Char) (v : Nat)
    (h : readOptSeconds cs = some (v, rest))
    (hex : cs = [] → ex.head? ≠ some ':') :
    readOptSeconds (cs ++ ex) = some (v, rest ++ ex) := by
  cases cs with
  | nil =>
    injection h with h'
    rw [Prod.mk.injEq] at h'
    rw [List.nil_append, ← h'.1, ← h'.2, List.nil_append]
    cases ex with
    | nil => rfl
    | cons e t =>
      have he : ¬ e = ':' := by
        intro hcon
        exact (hex rfl) (by rw [hcon]; rfl)
      show (if e = ':' then readDigits 2 t else some (0, e :: t)) = some (0, e :: t)
      rw [if_neg he]
  | cons c t =>
    rw [List.cons_append]
    show (if c = ':' then readDigits 2 (t ++ ex) else some (0, c :: (t ++ ex))) =
      some (v, rest ++ ex)
    rw [show readOptSeconds (c :: t) =
      (if c = ':' then readDigits 2 t else some (0, c :: t)) from rfl] at h
    by_cases hc : c = ':'
    · rw [if_pos hc] at h ⊢
      exact readDigits_append ex 2 t v rest h
    · rw [if_neg hc] at h ⊢
      injection h with h'
      rw [Prod.mk.injEq] at h'
      rw [← h'.1, ← h'.2]
      rfl

theorem parseNaive_append (cs rest ex : List Char) (n : Int)
    (h : parseNaive cs = some (n, rest))
    (hex : rest = [] → ex.head? ≠ some ':') :
    parseNaive (cs ++ ex) = some (n, rest ++ ex) := by
  unfold parseNaive at h ⊢
  cases h4 : readDigits 4 cs with
  | none => rw [h4] at h; cases h
  | some ph4 =>
    obtain ⟨y, r1⟩ := ph4
    rw [h4] at h
    rw [readDigits_append ex 4 cs y r1 h4]
    dsimp only at h ⊢
    cases he1 : expectChar '-' r1 with
    | none => rw [he1] at h; cases h
    | some r2 =>
      rw [he1] at h
      rw [expectChar_append '-' r1 r2 ex he1]
      dsimp only at h ⊢
      cases h2 : readDigits 2 r2 with
      | none => rw [h2] at h; cases h
      | some ph2 =>
        obtain ⟨mo, r3⟩ := ph2
        rw [h2] at h
        rw [readDigits_append ex 2 r2 mo r3 h2]
        dsimp only at h ⊢
        cases he2 : expectChar '-' r3 with
        | none => rw [he2] at h; cases h
        | some r4 =>
          rw [he2] at h
          rw [expectChar_append '-' r3 r4 ex he2]
          dsimp only at h ⊢
          cases h3 : readDigits 2 r4 with
          | none => rw [h3] at h; cases h
          | some ph3 =>
            obtain ⟨d, r5⟩ := ph3
            rw [h3] at h
            rw [readDigits_append ex 2 r4 d r5 h3]
            dsimp only at h ⊢
            cases he3 : expectChar 'T' r5 with
            | none => rw [he3] at h; cases h
            | some r6 =>
              rw [he3] at h
              rw [expectChar_append 'T' r5 r6 ex he3]
              dsimp only at h ⊢
              cases h5 : readDigits 2 r6 with
              | none => rw [h5] at h; cases h
              | some ph5 =>
                obtain ⟨hh, r7⟩ := ph5
                rw [h5] at h
                rw [readDigits_append ex 2 r6 hh r7 h5]
                dsimp only at h ⊢
                cases he4 : expectChar ':' r7 with
                | none => rw [he4] at h; cases h
                | some r8 =>
                  rw [he4] at h
                  rw [expectChar_append ':' r7 r8 ex he4]
                  dsimp only at h ⊢
                  cases h6 : readDigits 2 r8 with
                  | none => rw [h6] at h; cases h
                  | some ph6 =>
                    obtain ⟨mi, r9⟩ := ph6
                    rw [h6] at h
                    rw [readDigits_append ex 2 r8 mi r9 h6]
                    dsimp only at h ⊢
                    cases h7 : readOptSeconds r9 with
                    | none => rw [h7] at h; cases h
                    | some p7 =>
                      obtain ⟨sec, r10⟩ := p7
                      rw [h7] at h
                      dsimp only at h
                      by_cases hguard : 1 ≤ mo ∧ mo ≤ 12 ∧ 1 ≤ d ∧ d ≤ 31 ∧
                          hh ≤ 23 ∧ mi ≤ 59 ∧ sec ≤ 59
                      · rw [if_pos hguard] at h
                        injection h with h'
                        rw [Prod.mk.injEq] at h'
                        have hex' : r9 = [] → ex.head? ≠ some ':' := by
                          intro hr9
                          apply hex
                          rw [hr9] at h7
                          injection h7 with h7'
                          rw [Prod.mk.injEq] at h7'
                          rw [← h'.2, ← h7'.2]
                        rw [readOptSeconds_append r9 r10 ex sec h7 hex']
                        dsimp only
                        rw [if_pos hguard, ← h'.1, ← h'.2]
                      · rw [if_neg hguard] at h
                        cases h

theorem parseOffsetTail_shape (l : List Char) (off : Int)
    (h : parseOffsetTail l = some off) :
    ∃ a b c d e f, l = [a, b, c, d, e, f] := by
  rcases l with _ | ⟨a, _ | ⟨b, _ | ⟨c, _ | ⟨d, _ | ⟨e, _ | ⟨f, _ | ⟨g, r⟩⟩⟩⟩⟩⟩⟩
  · simp [parseOffsetTail] at h
  · simp [parseOffsetTail] at h
  · simp [parseOffsetTail] at h
  · simp [parseOffsetTail] at h
  · simp [parseOffsetTail] at h
  · simp [parseOffsetTail] at h
  · exact ⟨a, b, c, d, e, f, rfl⟩
  · cases h

theorem parseOffsetTail_append_ne_nil (l ex : List Char) (off : Int)
    (h : parseOffsetTail l = some off) (hex : ex ≠ []) :
    parseOffsetTail (l ++ ex) = none := by
  obtain ⟨a, b, c, d, e, f, rfl⟩ := parseOffsetTail_shape l off h
  cases ex with
  | nil => exact absurd rfl hex
  | cons g r => rfl

theorem replaceZ_append_Z (cs : List Char) (h : cs.contains 'Z' = false) :
    replaceZChars (cs ++ ['Z']) = cs ++ "+00:00".data := by
  induction cs with
  | nil => rfl
  | cons c t ih =>
    rw [List.contains_cons] at h
    rw [Bool.or_eq_false_iff] at h
    have hc : ¬ c = 'Z' := by
      intro hcon
      rw [hcon] at h
      simp at h
    rw [List.cons_append]
    show (if c = 'Z' then "+00:00".data else [c]) ++ replaceZChars (t ++ ['Z']) =
      c :: (t ++ "+00:00".data)
    rw [if_neg hc, ih h.2]
    rfl

/-- The shared core of the Z- and no-offset branches: appending
`+00:00` to a fully-consumed naive timestamp parses as that instant
read as UTC, converted to Eastern. -/
theorem parseAware_append_utc (cs : List Char) (n : Int)
    (hparse : parseNaive cs = some (n, [])) :
    parseAwareEastern (cs ++ "+00:00".data) = some (toEasternLocal n) := by
  have hdata : "+00:00".data = ['+', '0', '0', ':', '0', '0'] := rfl
  have hn := parseNaive_append cs [] ("+00:00".data) n hparse (fun _ => by decide)
  rw [List.nil_append, hdata] at hn
  unfold parseAwareEastern parseIsoChars
  rw [hdata, hn]
  dsimp only
  rw [show parseOffsetTail ['+', '0', '0', ':', '0', '0'] = some 0 from by decide]
  dsimp only
  rw [Int.sub_zero]

/-- Appending `+00:00` to a timestamp that already carries an offset
makes `fromisoformat` fail. -/
theorem parseIsoChars_append_offset_none (cs rest : List Char) (n off : Int)
    (hnaive : parseNaive cs = some (n, rest)) (hoff : parseOffsetTail rest = some off) :
    parseIsoChars (cs ++ "+00:00".data) = none := by
  obtain ⟨a, b, c, d, e, f, rfl⟩ := parseOffsetTail_shape rest off hoff
  have hdata : "+00:00".data = ['+', '0', '0', ':', '0', '0'] := rfl
  have hn := parseNaive_append cs [a, b, c, d, e, f] ("+00:00".data) n hnaive
    (fun hr => absurd hr (by simp))
  rw [hdata] at hn
  unfold parseIsoChars
  rw [hdata, hn]
  simp only [List.cons_append, List.nil_append]
  rw [show parseOffsetTail
    (a :: b :: c :: d :: e :: f :: ['+', '0', '0', ':', '0', '0']) = none from rfl]

/-- C8 counterexample: a timestamp carrying a negative UTC offset
contains no "+", so the code appends "+00:00" and the parse fails; the
event is dropped instead of being parsed with the offset it carries. -/
theorem c8_counterexample :
    parseIsoChars ("2024-05-01T19:00:00-04:00".data) = some (1714590000, some (-14400)) ∧
    parse_game_date "2024-05-01T19:00:00-04:00" = none := by decide

/-- C8 amended: a timestamp ending in "Z" is interpreted as UTC, a
'T'-containing timestamp carrying no offset is interpreted as UTC, a
timestamp carrying a "+" offset is parsed with the offset it carries,
but a 'T'-containing timestamp carrying a "-" offset gets "+00:00"
appended, fails to parse, and the event is dropped; every parsed
instant is converted to US Eastern (`toEasternLocal`). -/
theorem c8_amended_timestamp_handling (cs : List Char) (n off : Int) :
    (parseNaive cs = some (n, []) → cs.contains 'Z' = false →
      parse_game_date (String.mk (cs ++ ['Z'])) = some (toEasternLocal n)) ∧
    (parseNaive cs = some (n, []) → cs.contains '+' = false → cs.contains 'T' = true →
      cs.getLast? ≠ some 'Z' →
      parse_game_date (String.mk cs) = some (toEasternLocal n)) ∧
    (parseIsoChars cs = some (n, some off) → cs.contains '+' = true →
      cs.getLast? ≠ some 'Z' →
      parse_game_date (String.mk cs) = some (toEasternLocal (n - off))) ∧
    (∀ rest, parseNaive cs = some (n, rest) → parseOffsetTail rest = some off →
      cs.contains '+' = false → cs.contains 'T' = true → cs.getLast? ≠ some 'Z' →
      parse_game_date (String.mk cs) = none) := by
  refine ⟨?_, ?_, ?_, ?_⟩
  · intro hparse hz
    unfold parse_game_date
    rw [show (String.mk (cs ++ ['Z'])).data = cs ++ ['Z'] from rfl]
    rw [List.getLast?_concat, if_pos rfl]
    rw [replaceZ_append_Z cs hz]
    exact parseAware_append_utc cs n hparse
  · intro hparse hplus hT hz
    unfold parse_game_date
    rw [show (String.mk cs).data = cs from rfl]
    rw [if_neg hz]
    rw [if_pos (⟨by rw [hplus]; decide, hT⟩ :
      ¬ cs.contains '+' = true ∧ cs.contains 'T' = true)]
    exact parseAware_append_utc cs n hparse
  · intro hiso hplus hz
    unfold parse_game_date
    rw [show (String.mk cs).data = cs from rfl]
    rw [if_neg hz]
    rw [if_neg (fun hcon => hcon.1 hplus :
      ¬ (¬ cs.contains '+' = true ∧ cs.contains 'T' = true))]
    unfold parseAwareEastern
    rw [hiso]
  · intro rest hnaive hoff hplus hT hz
    unfold parse_game_date
    rw [show (String.mk cs).data = cs from rfl]
    rw [if_neg hz]
    rw [if_pos (⟨by rw [hplus]; decide, hT⟩ :
      ¬ cs.contains '+' = true ∧ cs.contains 'T' = true)]
    unfold parseAwareEastern
    rw [parseIsoChars_append_offset_none cs rest n off hnaive hoff]

/-- C8 amended witness: the four clauses at concrete timestamps. -/
theorem c8_amended_witness :
    parse_game_date (String.mk ("2024-05-01T12:00:00".data ++ ['Z'])) =
      some (toEasternLocal 1714564800) ∧
    parse_game_date (String.mk "2024-05-01T12:00:00".data) =
      some (toEasternLocal 1714564800) ∧
    parse_game_date (String.mk "2024-05-01T19:00:00+02:00".data) =
      some (toEasternLocal (1714590000 - 7200)) ∧
    parse_game_date (String.mk "2024-05-01T19:00:00-04:00".data) = none :=
  ⟨(c8_amended_timestamp_handling ("2024-05-01T12:00:00".data) 1714564800 0).1
      (by decide) (by decide),
   (c8_amended_timestamp_handling ("2024-05-01T12:00:00".data) 1714564800 0).2.1
      (by decide) (by decide) (by decide) (by decide),
   (c8_amended_timestamp_handling ("2024-05-01T19:00:00+02:00".data) 1714590000 7200).2.2.1
      (by decide) (by decide) (by decide),
   (c8_amended_timestamp_handling ("2024-05-01T19:00:00-04:00".data) 1714590000
      (-14400)).2.2.2 ("-04:00".data) (by decide) (by decide) (by decide) (by decide)
      (by decide)⟩

/-- Membership in the category fold of `_extract_leaders_by_indices`. -/
theorem extract_fold_mem (players : List TeamPlayers) :
    ∀ (cats : List (String × StatCatConfig)) (acc : List (String × List Leader))
      (c : String) (l : List Leader),
      (c, l) ∈ cats.foldl (fun acc cat =>
        if entriesForCategory players cat.2 ≠ [] then
          acc ++ [(cat.1, (((entriesForCategory players cat.2).insertionSort
            leaderNGe).map dropNumeric).take 3)]
        else acc) acc →
      (c, l) ∈ acc ∨ ∃ cfg, (c, cfg) ∈ cats ∧ entriesForCategory players cfg ≠ [] ∧
        l = (((entriesForCategory players cfg).insertionSort leaderNGe).map
          dropNumeric).take 3 := by
  intro cats
  induction cats with
  | nil => intro acc c l h; exact Or.inl h
  | cons cat cats ih =>
    intro acc c l h
    rw [List.foldl_cons] at h
    rcases ih _ c l h with hacc | ⟨cfg, h1, h2, h3⟩
    · by_cases hne : entriesForCategory players cat.2 ≠ []
      · rw [if_pos hne] at hacc
        rcases List.mem_append.mp hacc with h' | h'
        · exact Or.inl h'
        · have h'' := List.mem_singleton.mp h'
          rw [Prod.mk.injEq] at h''
          exact Or.inr ⟨cat.2, h''.1 ▸ List.mem_cons_self cat cats, hne, h''.2⟩
      · rw [if_neg hne] at hacc
        exact Or.inl hacc
    · exact Or.inr ⟨cfg, List.mem_cons_of_mem cat h1, h2, h3⟩

/-- Provenance of one collected entry of `_extract_leaders_by_indices`:
the value is the one picked by the skip-set break rule and parses
positive, and name/team come from the athlete and team objects. -/
theorem mem_entriesForCategory (players : List TeamPlayers) (cfg : StatCatConfig)
    (x : LeaderN) (hx : x ∈ entriesForCategory players cfg) :
    ∃ td ∈ players, ∃ pg ∈ td.statistics, ∃ ath ∈ pg.athletes,
      pickStat ath.stats cfg.indices = some (some x.value) ∧
      parseNum x.value = some x.numeric_value ∧ 0 < x.numeric_value ∧
      x.name = ath.displayName.getD "Unknown" ∧
      x.team = (td.team.bind TeamInfo.abbreviation).getD "UNK" := by
  simp only [entriesForCategory, List.mem_flatMap, List.mem_filterMap] at hx
  obtain ⟨td, htd, pg, hpg, ath, hath, hfilter⟩ := hx
  by_cases hse : ath.stats = []
  · rw [if_pos hse] at hfilter; cases hfilter
  · rw [if_neg hse] at hfilter
    cases hps : pickStat ath.stats cfg.indices with
    | none => rw [hps] at hfilter; cases hfilter
    | some c0 =>
      rw [hps] at hfilter
      cases c0 with
      | none => cases hfilter
      | some v =>
        dsimp only at hfilter
        by_cases hg : v ≠ "" ∧ v ≠ "--" ∧ v ≠ "0"
        · rw [if_pos hg] at hfilter
          cases hpn : parseNum v with
          | none => rw [hpn] at hfilter; cases hfilter
          | some q =>
            rw [hpn] at hfilter
            dsimp only at hfilter
            by_cases hq : 0 < q
            · rw [if_pos hq] at hfilter
              injection hfilter with hx'
              subst hx'
              exact ⟨td, htd, pg, hpg, ath, hath, hps, hpn, hq, rfl, rfl⟩
            · rw [if_neg hq] at hfilter; cases hfilter
        · rw [if_neg hg] at hfilter; cases hfilter

/-- C6 counterexample: with stats `["abc", "5"]` and candidate indices
`[0, 1]`, the extractor breaks at index 0 ("abc" passes the skip set),
the parse fails and the athlete is dropped entirely — whereas the
claim's rule (first index yielding a parseable positive value, as the
MLB helper implements it) would pick "5". -/
theorem c6_counterexample :
    extract_leaders_by_indices cexPlayersC6 cexCatsC6 = [] ∧
    pickStat [some "abc", some "5"] [0, 1] = some (some "abc") ∧
    parseNum "abc" = none ∧
    findPositiveStat [some "abc", some "5"] [0, 1] = some "5" ∧
    parseNum "5" = some 5 := by decide

/-- C6 amended: in the box-score index strategy, for every category in
the sport's index table the extractor scans every athlete on both
teams, takes for each athlete the value at the *first index in the
candidate list whose entry is present and outside the skip set*
{"--", "", "0", null}, keeps the athlete only when that single value
parses as a positive number (later candidate indices are not retried),
collects (name, value, team) entries, sorts them descending by numeric
value, keeps at most the top 3, and the returned entries no longer
carry the numeric sort key. -/
theorem c6_amended_first_nonskip_index (players : List TeamPlayers)
    (cats : List (String × StatCatConfig)) (c : String) (l : List Leader)
    (h : (c, l) ∈ extract_leaders_by_indices players cats) :
    l ≠ [] ∧ l.length ≤ 3 ∧
    l.Pairwise (fun a b => valKey b.value ≤ valKey a.value) ∧
    ∀ e ∈ l, ∃ cfg, (c, cfg) ∈ cats ∧
      ∃ td ∈ players, ∃ pg ∈ td.statistics, ∃ ath ∈ pg.athletes,
        pickStat ath.stats cfg.indices = some (some e.value) ∧
        (∃ q, parseNum e.value = some q ∧ 0 < q) ∧
        e.name = ath.displayName.getD "Unknown" ∧
        e.team = (td.team.bind TeamInfo.abbreviation).getD "UNK" := by
  rcases extract_fold_mem players cats [] c l h with hnil | ⟨cfg, hcfg, hne, hl⟩
  · cases hnil
  have hsorted := List.sorted_insertionSort leaderNGe (entriesForCategory players cfg)
  have hparse : ∀ x ∈ (entriesForCategory players cfg).insertionSort leaderNGe,
      parseNum x.value = some x.numeric_value := by
    intro x hx
    obtain ⟨_, _, _, _, _, _, _, hp, _, _, _⟩ :=
      mem_entriesForCategory players cfg x ((List.mem_insertionSort leaderNGe).mp hx)
    exact hp
  refine ⟨?_, ?_, ?_, ?_⟩
  · rw [hl]
    cases hse : (entriesForCategory players cfg).insertionSort leaderNGe with
    | nil => exact absurd ((sort_eq_nil_iff leaderNGe _).mp hse) hne
    | cons a t => simp [hse]
  · rw [hl]; exact List.length_take_le 3 _
  · rw [hl]
    apply List.Pairwise.sublist (List.take_sublist 3 _)
    rw [List.pairwise_map]
    apply hsorted.imp_of_mem
    intro a b ha hb hr
    have hpa := hparse a ha
    have hpb := hparse b hb
    show valKey (dropNumeric b).value ≤ valKey (dropNumeric a).value
    unfold valKey dropNumeric
    rw [hpa, hpb]
    exact hr
  · intro e he
    rw [hl] at he
    have he' := (List.take_sublist 3 _).subset he
    obtain ⟨x, hxmem, hxe⟩ := List.mem_map.mp he'
    obtain ⟨td, htd, pg, hpg, ath, hath, hps, hpn, hq, hnm, htm⟩ :=
      mem_entriesForCategory players cfg x ((List.mem_insertionSort leaderNGe).mp hxmem)
    subst hxe
    exact ⟨cfg, hcfg, td, htd, pg, hpg, ath, hath, hps,
      ⟨x.numeric_value, hpn, hq⟩, hnm, htm⟩

/-- C6 amended witness: five athletes with values 3, 7, 3, 10, 2.5 in
one category; the output is the descending top 3 without numeric keys. -/
theorem c6_amended_witness :
    extract_leaders_by_indices wellPlayersC6 wellCatsC6 =
      [("Cat", [⟨"D", "10", "AAA"⟩, ⟨"B", "7", "AAA"⟩, ⟨"A", "3", "AAA"⟩])] ∧
    ([⟨"D", "10", "AAA"⟩, ⟨"B", "7", "AAA"⟩, ⟨"A", "3", "AAA"⟩] : List Leader).length ≤ 3 ∧
    ([⟨"D", "10", "AAA"⟩, ⟨"B", "7", "AAA"⟩, ⟨"A", "3", "AAA"⟩] : List Leader).Pairwise
      (fun a b => valKey b.value ≤ valKey a.value) :=
  ⟨by decide,
   (c6_amended_first_nonskip_index wellPlayersC6 wellCatsC6 "Cat"
      [⟨"D", "10", "AAA"⟩, ⟨"B", "7", "AAA"⟩, ⟨"A", "3", "AAA"⟩] (by decide)).2.1,
   (c6_amended_first_nonskip_index wellPlayersC6 wellCatsC6 "Cat"
      [⟨"D", "10", "AAA"⟩, ⟨"B", "7", "AAA"⟩, ⟨"A", "3", "AAA"⟩] (by decide)).2.2.1⟩

/-- C9: for every input, `getScores` and `getDetailedGameData` never
propagate an exception to the caller: each always returns a result
value — a success object, a "no games found" placeholder object, or an
explicit error object.  The embedding makes Python exceptions explicit
(`Except`/`PyErr`), and the boundary functions are total Lean functions
whose results are enumerated here; the unsupported-sport conjunct
exhibits one explicit error object. -/
theorem c9_total_boundary (sport team_name : String) (now : Int)
    (net net2 : Int → Except Unit Scoreboard)
    (summaryNet : Option String → Except Unit DetailPayload) :
    ((∃ s, get_scores sport team_name now net = .success s) ∨
     (∃ t, get_scores sport team_name now net = .noGames t) ∨
     (∃ e, get_scores sport team_name now net = .err e)) ∧
    ((∃ d, get_detailed_game_data sport team_name net2 summaryNet = .ok d) ∨
     (∃ e, get_detailed_game_data sport team_name net2 summaryNet = .err e)) ∧
    (supported_sports.contains (lowerStr sport) = false →
      get_scores sport team_name now net = .err "Sport not supported" ∧
      get_detailed_game_data sport team_name net2 summaryNet =
        .err "Sport not supported") := by
  refine ⟨?_, ?_, ?_⟩
  · cases get_scores sport team_name now net with
    | success s => exact Or.inl ⟨s, rfl⟩
    | noGames t => exact Or.inr (Or.inl ⟨t, rfl⟩)
    | err e => exact Or.inr (Or.inr ⟨e, rfl⟩)
  · cases get_detailed_game_data sport team_name net2 summaryNet with
    | ok d => exact Or.inl ⟨d, rfl⟩
    | err e => exact Or.inr ⟨e, rfl⟩
  · intro h
    have h' : ¬ supported_sports.contains (lowerStr sport) = true := by rw [h]; decide
    constructor
    · unfold get_scores
      rw [if_pos h']
    · unfold get_detailed_game_data
      rw [if_pos h']

/-- C9 witness: the unsupported-sport conjunct at a concrete input. -/
theorem c9_witness :
    get_scores "curling" "X" 0 (fun _ => Except.error ()) = .err "Sport not supported" ∧
    get_detailed_game_data "curling" "X" (fun _ => Except.error ())
      (fun _ => Except.error ()) = .err "Sport not supported" :=
  (c9_total_boundary "curling" "X" 0 (fun _ => Except.error ()) (fun _ => Except.error ())
    (fun _ => Except.error ())).2.2 (by decide)

end Checkball
